import Mathlib

/-!
Verification of the `prompt_mcc_tester` MCC-classification repository.

The development shallowly embeds the decision-relevant parts of the Python
source into Lean:

* `parse_gpt_response` — Waki agent's free-text response parser
  (`src/mcc_classifier/agents/waki_agent.py`);
* `waki_fallback_classify` / `matheus_fallback_classify` — the deterministic
  keyword fallback classifiers of both agents;
* `matheus_classify` — Matheus agent's three-tier escalation state machine,
  with tier invocations abstracted as oracle inputs (the text-generation
  service is an external collaborator);
* `evaluator_process_record` / `evaluator_run` — the evaluation harness loop
  (`src/mcc_classifier/evaluator.py`).

Python strings are embedded as `List Char` (with `String` at record
boundaries), floats as `ℚ`, and dictionaries with possibly-absent keys as
`Option`-typed record fields.  All definitions are executable.
-/

namespace MccTester

/-! ## Python-style string primitives -/

/-- Whitespace set stripped by Python's `str.strip()` / matched by `\s`
(ASCII subset). -/
def pyWs (c : Char) : Bool :=
  c = ' ' || c = '\t' || c = '\n' || c = '\r' || c = '\x0b' || c = '\x0c'

/-- Python `str.strip()` on a character list. -/
def pyStripC (cs : List Char) : List Char :=
  ((cs.dropWhile pyWs).reverse.dropWhile pyWs).reverse

/-- Python `str.strip()` on a `String`. -/
def pyStrip (s : String) : String :=
  String.mk (pyStripC s.data)

/-- ASCII lower-casing of one character, as Python's `str.lower()` does on
ASCII input. -/
def lowerCh (c : Char) : Char :=
  if 'A' ≤ c ∧ c ≤ 'Z' then Char.ofNat (c.toNat + 32) else c

/-- ASCII upper-casing of one character, as Python's `str.upper()` does on
ASCII input. -/
def upperCh (c : Char) : Char :=
  if 'a' ≤ c ∧ c ≤ 'z' then Char.ofNat (c.toNat - 32) else c

/-- Python `str.lower()` on a character list. -/
def lowerC (cs : List Char) : List Char := cs.map lowerCh

/-- Python `str.lower()` on a `String`. -/
def lowerStr (s : String) : String := String.mk (lowerC s.data)

/-- Python `str.upper()` on a `String`. -/
def upperStr (s : String) : String := String.mk (s.data.map upperCh)

/-- Python's `pat in text` substring test on character lists. -/
def containsC (pat : List Char) : List Char → Bool
  | [] => pat.isEmpty
  | c :: cs => pat.isPrefixOf (c :: cs) || containsC pat cs

/-- Python `text.split('\n')`: split at every newline, keeping empty pieces. -/
def splitNl : List Char → List (List Char)
  | [] => [[]]
  | c :: cs =>
    if c = '\n' then [] :: splitNl cs
    else
      match splitNl cs with
      | [] => [[c]]
      | p :: ps => (c :: p) :: ps

/-- Python `" ".join(pieces)`. -/
def joinSp : List (List Char) → List Char
  | [] => []
  | [p] => p
  | p :: q :: ps => p ++ ' ' :: joinSp (q :: ps)

/-- Python `str.split()` (split on whitespace runs, dropping empty pieces);
auxiliary accumulator form. -/
def pySplitWsAux : List Char → List Char → List (List Char)
  | [], acc => if acc.isEmpty then [] else [acc.reverse]
  | c :: cs, acc =>
    if pyWs c then
      (if acc.isEmpty then pySplitWsAux cs [] else acc.reverse :: pySplitWsAux cs [])
    else pySplitWsAux cs (c :: acc)

/-- Python `str.split()` on a character list. -/
def pySplitWs (cs : List Char) : List (List Char) := pySplitWsAux cs []

/-- First four characters if they are all digits (the head case of the
regex `\d{4}`). -/
def takeFourDigits : List Char → Option (List Char)
  | a :: b :: c :: d :: _ =>
    if a.isDigit && b.isDigit && c.isDigit && d.isDigit then some [a, b, c, d]
    else none
  | _ => none

/-- `re.findall(r'(\d{4})', s)[0]`: the leftmost run of four digits. -/
def firstFour : List Char → Option (List Char)
  | [] => none
  | c :: cs =>
    match takeFourDigits (c :: cs) with
    | some r => some r
    | none => firstFour cs

/-- Whether the text contains four consecutive digit characters (existence
of a `\d{4}` match). -/
def hasFourRun : List Char → Bool
  | a :: b :: c :: d :: rest =>
    (a.isDigit && b.isDigit && c.isDigit && d.isDigit) || hasFourRun (b :: c :: d :: rest)
  | _ => false

/-! ## Shared data model -/

/-- One entry of an `alternative_mccs` list.  The Python dictionaries carry
the keys `mcc_code`, `mcc_description`, `confidence` and sometimes
`explanation`; a missing key is `none`. -/
structure AltMcc where
  mcc_code : String
  mcc_description : String
  confidence : ℚ
  explanation : Option String := none
  deriving Repr, DecidableEq

/-- The dictionary shape returned by `WakiAgent._parse_gpt_response` and
`WakiAgent._fallback_classify` (and hence by `WakiAgent.classify`). -/
structure WakiDecision where
  mcc_code : String
  mcc_description : String
  confidence : ℚ
  alternative_mccs : List AltMcc
  analysis : String
  industry_classification : String
  reasoning : String
  deriving Repr, DecidableEq

/-! ## Waki agent: code table (`WakiAgent._load_mcc_data`)

`mcc_list.csv` is absent from the repository, so loading raises and the
agent keeps the hardcoded fallback table below (code, description,
classification). -/

/-- The Waki agent's fallback MCC table. -/
def waki_mcc_data : List (String × String × String) :=
  [ ("5411", ("Grocery Stores, Supermarkets", "Approved")),
    ("5814", ("Fast Food Restaurants", "Approved")),
    ("5812", ("Eating places and Restaurants", "Approved")),
    ("5999", ("Miscellaneous and Specialty Retail Stores", "Approved")),
    ("7299", ("Miscellaneous Personal Services", "Approved")),
    ("5732", ("Electronics Sales", "Approved")),
    ("5045", ("Computers, Computer Peripheral Equipment, Software", "Approved")),
    ("5311", ("Department Stores", "Approved")),
    ("5200", ("Home Supply Warehouse Stores", "Approved")),
    ("5499", ("Misc. Food Stores – Convenience Stores and Specialty Markets", "Approved")),
    ("5651", ("Family Clothing Stores", "Approved")),
    ("8011", ("Doctors and Physicians", "Approved")),
    ("7230", ("Barber and Beauty Shops", "Approved")),
    ("7011", ("Lodging – Hotels, Motels, Resorts", "Approved")) ]

/-- Python `code in self.mcc_data` for the Waki agent. -/
def wakiMccMem (code : String) : Bool :=
  waki_mcc_data.any (fun e => e.1 = code)

/-- Python `self.mcc_data[code]['description']` for the Waki agent
(empty string when absent; only called after a membership test). -/
def wakiMccDesc (code : String) : String :=
  match waki_mcc_data.find? (fun e => e.1 = code) with
  | some e => e.2.1
  | none => ""

/-- Python `s.startswith(p)`. -/
def pyStartsWith (s p : String) : Bool := p.data.isPrefixOf s.data

/-- `WakiAgent._determine_industry`: broad industry from the MCC's leading
digits. -/
def waki_determine_industry (mcc : String) : String :=
  if mcc = "" ∨ mcc.data.length < 2 then "Unknown"
  else if pyStartsWith mcc ("5") then
    if pyStartsWith mcc ("54") then "Food and Grocery Retail"
    else if pyStartsWith mcc ("56") then "Apparel and Accessories Retail"
    else if pyStartsWith mcc ("57") then "Home Furnishings and Electronics Retail"
    else if pyStartsWith mcc ("58") then "Restaurants and Food Service"
    else if pyStartsWith mcc ("59") then "Specialty Retail"
    else "Retail/Merchants"
  else if pyStartsWith mcc ("7") then
    if pyStartsWith mcc ("70") ∨ pyStartsWith mcc ("71") then "Travel and Lodging"
    else if pyStartsWith mcc ("72") then "Personal Services"
    else if pyStartsWith mcc ("73") then "Business and Professional Services"
    else if pyStartsWith mcc ("74") ∨ pyStartsWith mcc ("76") then "Repair and Maintenance Services"
    else if pyStartsWith mcc ("75") then "Auto Services"
    else if pyStartsWith mcc ("78") ∨ pyStartsWith mcc ("79") then "Entertainment and Recreation"
    else "Services"
  else if pyStartsWith mcc ("8") then
    if pyStartsWith mcc ("80") then "Healthcare"
    else if pyStartsWith mcc ("81") then "Legal Services"
    else if pyStartsWith mcc ("82") ∨ pyStartsWith mcc ("83") then "Educational Services"
    else if pyStartsWith mcc ("86") then "Membership Organizations"
    else "Professional Services"
  else if pyStartsWith mcc ("4") then "Transportation/Utilities"
  else if pyStartsWith mcc ("6") then "Financial Services"
  else if pyStartsWith mcc ("9") then "Government Services"
  else if pyStartsWith mcc ("0") ∨ pyStartsWith mcc ("1") ∨ pyStartsWith mcc ("2")
       ∨ pyStartsWith mcc ("3") then "Contractors/Construction/Agriculture"
  else "Other Business Categories"

/-! ## Waki agent: free-text response parser (`WakiAgent._parse_gpt_response`)

The parser walks the reply line by line (`lines = text.strip().split('\n')`),
recognising sections by case-insensitive substring match, then applies
increasingly aggressive regex searches for a 4-digit code, and finally
degrades to the fixed fallback code `7299`. -/

/-- Separator class `[:\s-]` used between a code and its inline
description. -/
def sepCh (c : Char) : Bool := c = ':' || pyWs c || c = '-'

/-- The capture of `[:\s-]+(<keep>+)` applied right after a matched code:
greedy separators, then a non-empty capture of `keep` characters, giving
one separator back when the capture would otherwise be empty (regex
backtracking). `none` when the whole pattern fails at this position. -/
def sepCapture (keep : Char → Bool) (rest : List Char) : Option (List Char) :=
  let seps := rest.takeWhile sepCh
  if seps.isEmpty then none
  else
    let after := rest.drop seps.length
    let cap := after.takeWhile keep
    if !cap.isEmpty then some cap
    else if 2 ≤ seps.length then
      match seps.getLast? with
      | some c => some [c]
      | none => none
    else none

/-- Leftmost match of `\d{4}[:\s-]+(<keep>+)`, returning the capture
(`re.search(r'\d{4}[:\s-]+([^\n]+)', line)` with `keep = fun _ => true`,
`re.search(rf'{code}[:\s-]+([^\.]+)', line)` uses `codeCapture` below). -/
def fourDigitCapture (keep : Char → Bool) : List Char → Option (List Char)
  | [] => none
  | c :: cs =>
    match takeFourDigits (c :: cs) with
    | some _ =>
      match sepCapture keep ((c :: cs).drop 4) with
      | some cap => some cap
      | none => fourDigitCapture keep cs
    | none => fourDigitCapture keep cs

/-- Leftmost match of `{code}[:\s-]+(<keep>+)` for a literal code. -/
def codeCapture (code : List Char) (keep : Char → Bool) : List Char → Option (List Char)
  | [] => none
  | c :: cs =>
    if code.isPrefixOf (c :: cs) then
      match sepCapture keep ((c :: cs).drop code.length) with
      | some cap => some cap
      | none => codeCapture code keep cs
    else codeCapture code keep cs

/-- The effect of `:?` after a matched label: consume one optional
colon. -/
def colonTail (rest : List Char) : List Char :=
  match rest with
  | ':' :: t => t
  | r => r

/-- Case-insensitive prefix test (`re.IGNORECASE` label matching). -/
def ciPrefix (label : List Char) (u : List Char) : Bool :=
  label.isPrefixOf (lowerC u)

/-- One-position attempt of `label:?\s*(\d{4})` (case-insensitive label). -/
def labelCodeAt (label : List Char) (u : List Char) : Option (List Char) :=
  if ciPrefix label u then
    takeFourDigits ((colonTail (u.drop label.length)).dropWhile pyWs)
  else none

/-- One-position attempt of the alternation
`MCC:?\s*(\d{4})|code:?\s*(\d{4})|suggested:?\s*(\d{4})`. -/
def labelCodeAt3 (u : List Char) : Option (List Char) :=
  match labelCodeAt ("mcc".data) u with
  | some r => some r
  | none =>
    match labelCodeAt ("code".data) u with
    | some r => some r
    | none => labelCodeAt ("suggested".data) u

/-- Leftmost match of the labelled-code alternation over a section text
(first aggressive search of `_parse_gpt_response`). -/
def aggr1Scan : List Char → Option (List Char)
  | [] => none
  | c :: cs =>
    match labelCodeAt3 (c :: cs) with
    | some r => some r
    | none => aggr1Scan cs

/-- Numeric value of a digit run. -/
def digitsVal (ds : List Char) : Nat :=
  ds.foldl (fun a c => 10 * a + (c.toNat - 48)) 0

/-- One-position attempt of `(\d{1,3})%|(\d{1,3})\s*percent`
(the line is already lower-cased by the caller). -/
def pctAt (u : List Char) : Option Nat :=
  let run := u.takeWhile Char.isDigit
  if 1 ≤ run.length ∧ run.length ≤ 3 then
    let after := u.drop run.length
    if after.head? = some '%' then some (digitsVal run)
    else if ("percent".data).isPrefixOf (after.dropWhile pyWs) then some (digitsVal run)
    else none
  else none

/-- Leftmost percentage match in a confidence line. -/
def pctScan : List Char → Option Nat
  | [] => none
  | c :: cs =>
    match pctAt (c :: cs) with
    | some n => some n
    | none => pctScan cs

/-- One-position attempt of `confidence:?\s*(0\.\d+)` with the captured
decimal parsed exactly as a rational (the caller lower-cased the line;
Python parses the capture with `float`, modelled here by the exact
decimal value). -/
def decAt (u : List Char) : Option ℚ :=
  if ("confidence".data).isPrefixOf u then
    match (colonTail (u.drop 10)).dropWhile pyWs with
    | '0' :: '.' :: ds =>
      if (ds.takeWhile Char.isDigit).isEmpty then none
      else some ((digitsVal (ds.takeWhile Char.isDigit) : ℚ) /
        ((10 : ℚ) ^ (ds.takeWhile Char.isDigit).length))
    | _ => none
  else none

/-- Leftmost decimal-confidence match in a confidence line. -/
def decScan : List Char → Option ℚ
  | [] => none
  | c :: cs =>
    match decAt (c :: cs) with
    | some q => some q
    | none => decScan cs

/-- Python `round(x, 2)` on the exact rational value.  (Python rounds
ties on binary floats to even; every value this code rounds is an exact
multiple of 1/100 or far from a tie, where the two agree.) -/
def roundQ2 (q : ℚ) : ℚ := ((round (q * 100) : ℤ) : ℚ) / 100

/-- Section-header test: any of the given lower-case header keywords
occurs in the (lower-cased) raw line. -/
def anyHeaderC (hs : List (List Char)) (l : List Char) : Bool :=
  hs.any fun h => containsC h (lowerC l)

/-- Absorb the lines following a recognised section header until the next
recognised header: `while j < len(lines) and not any(header in lines[j].lower() ...):
if lines[j].strip(): section.append(lines[j].strip())` then `" ".join`. -/
def gather (hs : List (List Char)) (rest : List (List Char)) : List Char :=
  joinSp (((rest.takeWhile fun l => !anyHeaderC hs l).map pyStripC).filter
    fun l => !l.isEmpty)

/-- Headers ending the "Analysis" section. -/
def headersAfterAnalysis : List (List Char) :=
  [("industry classification").data, ("primary mcc").data, ("mcc description").data,
   ("**industry").data]

/-- Headers ending the "Industry Classification" section. -/
def headersAfterIndustry : List (List Char) :=
  [("primary mcc").data, ("mcc description").data, ("reasoning").data]

/-- Headers ending the "Reasoning" section. -/
def headersAfterReasoning : List (List Char) :=
  [("confidence").data, ("alternative mccs").data]

/-- `re.sub(r'^.*?description:?\s*', '', line, flags=re.IGNORECASE)`:
remove everything up to and including the first occurrence of
"description", an optional colon and following whitespace.  `low` is the
lower-cased image of `orig`; when the label never occurs the line is
returned unchanged (no regex match). -/
def subAfterLabelColonWs (label : List Char) : List Char → List Char → List Char
  | low, orig =>
    if label.isPrefixOf low then
      let rest := orig.drop label.length
      let rest2 := match rest with
                   | ':' :: t => t
                   | _ => rest
      rest2.dropWhile pyWs
    else
      match low, orig with
      | _ :: lt, _ :: ot => subAfterLabelColonWs label lt ot
      | _, _ => orig

/-- An alternative being accumulated by the parser's first pass
(character-list fields; converted to `AltMcc` at the end). -/
structure AltC where
  code : List Char
  desc : List Char
  conf : ℚ
  expl : Option (List Char) := none
  deriving Repr, DecidableEq

/-- Mutable state of the parser's first line-by-line pass. -/
structure PassSt where
  analysis : List Char := []
  industry : List Char := []
  mcc_code : Option (List Char) := none
  mcc_description : List Char := []
  reasoning : List Char := []
  confidence_value : ℚ := 0.7
  in_alternatives : Bool := false
  current_alt : Option AltC := none
  alt_explanation : List Char := []
  alts : List AltC := []
  deriving Repr

/-- The confidence assigned to the `k`-th extracted alternative:
`max(0.1, confidence_value - 0.2 - (0.1 * len(alternative_mccs)))`,
rounded to two decimals. -/
def altConf (cv : ℚ) (k : ℕ) : ℚ :=
  roundQ2 (max 0.1 (cv - 0.2 - 0.1 * (k : ℚ)))

/-- Close the alternative currently being accumulated (attach the pending
explanation when non-empty and append it to the list). -/
def flushAlt (st : PassSt) : PassSt :=
  match st.current_alt with
  | some a =>
    { st with
      alts := st.alts ++
        [if st.alt_explanation.isEmpty then a else { a with expl := some st.alt_explanation }],
      current_alt := none,
      alt_explanation := [] }
  | none => st

/-- Header test for the "Analysis" branch:
`re.search(r'analysis|step[- ]by[- ]step', line.lower())`. -/
def isAnalysisHeader (low : List Char) : Bool :=
  containsC ("analysis".data) low || containsC ("step-by-step".data) low
    || containsC ("step by step".data) low || containsC ("step-by step".data) low
    || containsC ("step by-step".data) low

/-- Header test for the "Primary MCC" branch. -/
def isPrimaryHeader (low : List Char) : Bool :=
  containsC ("primary mcc".data) low || containsC ("mcc code".data) low
    || containsC ("mcc:".data) low

/-- Header test for the "MCC Description" branch. -/
def isDescHeader (low : List Char) : Bool :=
  containsC ("mcc description".data) low || containsC ("description:".data) low

/-- The "Primary MCC" branch: overwrite the code with the line's first
4-digit run when present. -/
def primaryUpdate (st : PassSt) (L : List Char) : PassSt :=
  match firstFour L with
  | some m => { st with mcc_code := some m }
  | none => st

/-- The description text computed by the "MCC Description" branch: the
text after the label, or the next line when that is empty. -/
def descNew (L low : List Char) (rest : List (List Char)) : List Char :=
  if (pyStripC (subAfterLabelColonWs ("description".data) low L)).isEmpty then
    match rest with
    | r :: _ => pyStripC r
    | [] => pyStripC (subAfterLabelColonWs ("description".data) low L)
  else pyStripC (subAfterLabelColonWs ("description".data) low L)

/-- The "MCC Description" branch: set the description only when
non-empty. -/
def descUpdate (st : PassSt) (L low : List Char) (rest : List (List Char)) : PassSt :=
  if (descNew L low rest).isEmpty then st
  else { st with mcc_description := descNew L low rest }

/-- The "Confidence" branch: qualitative word, overridden by an explicit
percentage, overridden by an explicit decimal. -/
def confUpdate (cv0 : ℚ) (low : List Char) : ℚ :=
  let cv1 := if containsC ("high".data) low then (0.95 : ℚ)
             else if containsC ("medium".data) low then 0.8
             else if containsC ("low".data) low then 0.6
             else cv0
  let cv2 := match pctScan low with
             | some p => min 0.99 (max 0.01 ((p : ℚ) / 100))
             | none => cv1
  match decScan low with
  | some q => q
  | none => cv2

/-- The alternatives-section branch: a line with a 4-digit run closes the
pending alternative and starts a new one; otherwise the line joins the
pending alternative's explanation. -/
def altUpdate (st : PassSt) (L : List Char) : PassSt :=
  match firstFour L with
  | some m =>
    let st1 := flushAlt st
    let d := match fourDigitCapture (fun _ => true) L with
             | some cap => pyStripC cap
             | none => []
    { st1 with current_alt := some ⟨m, d, altConf st1.confidence_value st1.alts.length, none⟩ }
  | none =>
    match st.current_alt with
    | some _ =>
      { st with alt_explanation :=
          if st.alt_explanation.isEmpty then L else st.alt_explanation ++ ' ' :: L }
    | none => st

/-- One iteration of the parser's first pass over line `L0` with the
remaining raw lines `rest` available for forward section gathering.  The
branch order mirrors the Python `elif` chain exactly. -/
def passStep (st : PassSt) (L0 : List Char) (rest : List (List Char)) : PassSt :=
  if (pyStripC L0).isEmpty then st
  else if isAnalysisHeader (lowerC (pyStripC L0)) then
    { st with analysis := gather headersAfterAnalysis rest }
  else if containsC ("industry classification".data) (lowerC (pyStripC L0)) then
    { st with industry := gather headersAfterIndustry rest }
  else if isPrimaryHeader (lowerC (pyStripC L0)) then
    primaryUpdate st (pyStripC L0)
  else if isDescHeader (lowerC (pyStripC L0)) then
    descUpdate st (pyStripC L0) (lowerC (pyStripC L0)) rest
  else if containsC ("reasoning".data) (lowerC (pyStripC L0)) then
    { st with reasoning := gather headersAfterReasoning rest }
  else if containsC ("confidence".data) (lowerC (pyStripC L0)) then
    { st with confidence_value := confUpdate st.confidence_value (lowerC (pyStripC L0)) }
  else if containsC ("alternative mcc".data) (lowerC (pyStripC L0)) then
    { st with in_alternatives := true }
  else if st.in_alternatives then
    altUpdate st (pyStripC L0)
  else st

/-- The parser's first pass over all lines. -/
def passLoop (st : PassSt) : List (List Char) → PassSt
  | [] => st
  | l :: rest => passLoop (passStep st l rest) rest

/-- Second aggressive search: the first raw line mentioning
"mcc"/"code"/"category" that contains a 4-digit run, together with the
optional inline description captured by `{code}[:\s-]+([^\.]+)`. -/
def aggr2Line (l : List Char) : Option (List Char × Option (List Char)) :=
  if containsC ("mcc".data) (lowerC l) || containsC ("code".data) (lowerC l)
     || containsC ("category".data) (lowerC l) then
    match firstFour l with
    | some m => some (m, (codeCapture m (fun c => c ≠ '.') l).map pyStripC)
    | none => none
  else none

/-- Scan all raw lines with `aggr2Line`, stopping at the first hit. -/
def aggr2 : List (List Char) → Option (List Char × Option (List Char))
  | [] => none
  | l :: ls =>
    match aggr2Line l with
    | some r => some r
    | none => aggr2 ls

/-- Category-dependent fallback alternatives synthesised when fewer than
two alternatives were parsed. -/
def wakiFallbackAlts (code : String) : List AltMcc :=
  if pyStartsWith code ("5") then
    [⟨"5999", "Miscellaneous and Specialty Retail Stores", 0.3,
      some "General retail fallback option"⟩,
     ⟨"5499", "Misc. Food Stores – Convenience Stores and Specialty Markets", 0.25,
      some "Food retail alternative if applicable"⟩]
  else if pyStartsWith code ("7") then
    [⟨"7399", "Business Services, Not Elsewhere Classified", 0.3,
      some "Business services alternative"⟩,
     ⟨"7311", "Advertising Services", 0.25,
      some "Marketing/promotion services if applicable"⟩]
  else if pyStartsWith code ("8") then
    [⟨"8999", "Professional Services, Not Elsewhere Classified", 0.3,
      some "Alternative professional services classification"⟩,
     ⟨"8931", "Accounting, Auditing, and Bookkeeping Services", 0.25,
      some "Financial professional services if applicable"⟩]
  else
    [⟨"5999", "Miscellaneous and Specialty Retail Stores", 0.3,
      some "Retail alternative"⟩,
     ⟨"7299", "Miscellaneous Personal Services", 0.25,
      some "Services alternative"⟩]

/-- Append fallback alternatives whose code differs from the primary until
at least two alternatives exist. -/
def fillAlts (code : String) (alts : List AltMcc) (fb : List AltMcc) : List AltMcc :=
  fb.foldl (fun acc a =>
    if 2 ≤ acc.length then acc
    else if a.mcc_code ≠ code then acc ++ [a] else acc) alts

/-- Convert a first-pass alternative to the result representation. -/
def altCtoMcc (a : AltC) : AltMcc :=
  ⟨String.mk a.code, String.mk a.desc, a.conf, a.expl.map String.mk⟩

/-- The primary code after the structured pass and the first aggressive
search: the pass result, else a labelled code from the "reasoning" then
the "analysis" section (the analysis hit overwrites the reasoning hit,
mirroring the Python loop over `[reasoning, analysis]`). -/
def parseCode1 (st : PassSt) : Option (List Char) :=
  match st.mcc_code with
  | some m => some m
  | none =>
    match aggr1Scan st.analysis with
    | some c => some c
    | none => aggr1Scan st.reasoning

/-- The primary code and optional inline description after both aggressive
searches. -/
def parseCodeDesc (lines : List (List Char)) (st : PassSt) :
    Option (List Char) × Option (List Char) :=
  match parseCode1 st with
  | some m => (some m, none)
  | none =>
    match aggr2 lines with
    | some (m, d) => (some m, d)
    | none => (none, none)

/-- The final primary code, degrading to the designated fallback "7299". -/
def parseCodeF (lines : List (List Char)) (st : PassSt) : String :=
  match (parseCodeDesc lines st).1 with
  | some m => String.mk m
  | none => "7299"

/-- The description before table validation: the aggressive-search capture
when one exists, the pass description otherwise, and the fixed fallback
description when no code was found at all. -/
def parseDesc0 (lines : List (List Char)) (st : PassSt) : String :=
  match (parseCodeDesc lines st).1 with
  | some _ =>
    match (parseCodeDesc lines st).2 with
    | some d => String.mk d
    | none => String.mk st.mcc_description
  | none => "Miscellaneous Personal Services"

/-- The final description: canonicalised from the code table when the code
is known. -/
def parseDescF (lines : List (List Char)) (st : PassSt) : String :=
  if wakiMccMem (parseCodeF lines st) then wakiMccDesc (parseCodeF lines st)
  else parseDesc0 lines st

/-- The final reasoning text with its two fallback fillers. -/
def parseReasoningF (st : PassSt) : String :=
  if st.reasoning.isEmpty ∧ ¬st.analysis.isEmpty then
    "Classification based on merchant name analysis: " ++ String.mk st.analysis
  else if st.reasoning.isEmpty then "Classification based on merchant name patterns."
  else String.mk st.reasoning

/-- The final alternatives: the parsed ones, topped up to two with the
category fallback pool when fewer than two were parsed. -/
def parseAltsF (lines : List (List Char)) (st : PassSt) : List AltMcc :=
  if (st.alts.map altCtoMcc).length < 2 then
    fillAlts (parseCodeF lines st) (st.alts.map altCtoMcc)
      (wakiFallbackAlts (parseCodeF lines st))
  else st.alts.map altCtoMcc

/-- Assembly of the final parser result from the first-pass state. -/
def parseAssemble (lines : List (List Char)) (st : PassSt) : WakiDecision :=
  { mcc_code := parseCodeF lines st
    mcc_description := parseDescF lines st
    confidence := st.confidence_value
    alternative_mccs := parseAltsF lines st
    analysis := String.mk st.analysis
    industry_classification :=
      if st.industry.isEmpty then waki_determine_industry (parseCodeF lines st)
      else String.mk st.industry
    reasoning := parseReasoningF st }

/-- `WakiAgent._parse_gpt_response`: turn one raw reply into a fully
populated decision.  Total by construction — the Python `try/except`
safety net is unreachable in this embedding, matching its role of never
letting the caller see an exception. -/
def parse_gpt_response (text : String) : WakiDecision :=
  parseAssemble (splitNl (pyStripC text.data))
    (flushAlt (passLoop {} (splitNl (pyStripC text.data))))

/-! ## Merchant records

One input record as the agents receive it: `merchant_name`/`legal_name`
positional arguments plus the `**merchant_data` keyword fields.  A key
absent from the Python dictionary is `none`. -/

/-- A merchant record passed to `classify`/`_fallback_classify`. -/
structure MerchantData where
  merchant_name : String
  legal_name : Option String := none
  original_mcc_code : Option String := none
  mcc_description : Option String := none
  ai_original_description : Option String := none
  deriving Repr, DecidableEq

/-- `d.get(key, '')` for an optional string field. -/
def optStr (o : Option String) : String := o.getD ("")

/-! ## Waki agent: fallback classifier (`WakiAgent._fallback_classify`)

Pattern matching uses Python's `\b...\b` word-boundary regexes; `\w` is
modelled as ASCII `[A-Za-z0-9_]` (all pattern and table text is ASCII
except the explicitly listed accented keywords, whose boundary behaviour
agrees on the inputs this repository feeds in). -/

/-- Regex word character `\w` (ASCII). -/
def wordCh (c : Char) : Bool := c.isAlphanum || c = '_'

/-- Word-bounded prefix: `pat` starts here and the following character (if
any) is not a word character. -/
def wbMatchAt (pat text : List Char) : Bool :=
  pat.isPrefixOf text &&
    (match (text.drop pat.length).head? with
     | some c => !wordCh c
     | none => true)

/-- Scan for a word-bounded occurrence of `pat`, tracking the previous
character for the leading boundary. -/
def wbScan (pat : List Char) : List Char → Option Char → Bool
  | text, prev =>
    ((match prev with
      | some c => !wordCh c
      | none => true) && wbMatchAt pat text) ||
    (match text with
     | [] => false
     | c :: cs => wbScan pat cs (some c))

/-- `re.search(r'\b(p1|p2|...)\b', text)` as existence of any word-bounded
alternative. -/
def wbAny (pats : List String) (text : List Char) : Bool :=
  pats.any fun p => wbScan p.data text none

/-- The ordered pattern table of `WakiAgent._fallback_classify`
(alternatives, mcc, description, confidence); `7[\s-]?eleven` is expanded
into its literal alternatives. -/
def wakiPatterns : List (List String × String × String × ℚ) :=
  [ (["restaurant", "cafe", "café", "coffee", "bistro", "pizzeria", "grill", "diner",
      "eatery", "food"], ("5812", ("Eating places and Restaurants", 0.9))),
    (["fast food", "burger", "taco", "sandwich", "sub", "quick"],
      ("5814", ("Fast Food Restaurants", 0.9))),
    (["grocery", "market", "supermarket", "food store", "supermercado", "groceries"],
      ("5411", ("Grocery Stores, Supermarkets", 0.9))),
    (["convenience", "mini mart", "7eleven", "7 eleven", "7\televen", "7\neleven",
      "7\releven", "7\x0beleven", "7\x0celeven", "7-eleven", "corner store"],
      ("5499", ("Misc. Food Stores – Convenience Stores and Specialty Markets", 0.85))),
    (["electronics", "computer", "laptop", "phone", "mobile", "tech", "digital"],
      ("5732", ("Electronics Sales", 0.85))),
    (["clothing", "apparel", "fashion", "wear", "dress", "outfit", "garment"],
      ("5651", ("Family Clothing Stores", 0.85))),
    (["hardware", "tool", "diy", "home improvement"],
      ("5251", ("Hardware Stores", 0.85))),
    (["furniture", "home furnishing", "mattress", "bed", "sofa", "couch"],
      ("5712", ("Furniture, Home Furnishings, and Equipment Stores, Except Appliances", 0.85))),
    (["department store", "general store", "variety", "walmart", "target"],
      ("5311", ("Department Stores", 0.85))),
    (["shoe", "footwear", "sneaker", "boot"], ("5661", ("Shoe Stores", 0.9))),
    (["salon", "barber", "hair", "beauty", "nail", "spa"],
      ("7230", ("Barber and Beauty Shops", 0.9))),
    (["repair", "fix", "mend", "service"],
      ("7699", ("Repair Shops and Related Services –Miscellaneous", 0.8))),
    (["auto", "car", "vehicle", "mechanic", "automotive"],
      ("7538", ("Automotive Service Shops", 0.9))),
    (["hotel", "motel", "inn", "lodging", "accommodation"],
      ("7011", ("Lodging – Hotels, Motels, Resorts", 0.9))),
    (["clean", "cleaning", "janitorial", "maid", "wash", "laundry"],
      ("7349", ("Cleaning and Maintenance, Janitorial Services", 0.85))),
    (["doctor", "physician", "medical", "clinic", "health", "healthcare"],
      ("8011", ("Doctors and Physicians", 0.9))),
    (["dentist", "dental", "orthodont", "teeth", "tooth"],
      ("8021", ("Dentists and Orthodontists", 0.9))),
    (["law", "attorney", "legal", "lawyer", "advocate"],
      ("8111", ("Legal Services, Attorneys", 0.9))),
    (["consult", "consulting", "advisor", "counsel"],
      ("7392", ("Management, Consulting, and Public Relations Services", 0.8))),
    (["insurance", "insure", "policy", "coverage"],
      ("6300", ("Insurance Sales, Underwriting and Premiums", 0.85))),
    (["pet", "animal", "dog", "cat", "bird"],
      ("5995", ("Pet Shops, Pet Foods, and Supplies Stores", 0.9))),
    (["book", "comic", "magazine", "publication"], ("5942", ("Bookstores", 0.9))),
    (["pharmacy", "drug", "prescription", "medicine", "pharmaceutical"],
      ("5912", ("Drug Stores and Pharmacies", 0.9))),
    (["toy", "game", "hobby", "play"], ("5945", ("Hobby, Toy, and Game Shops", 0.85))) ]

/-- Stable descending insertion by confidence, matching Python's stable
`list.sort(key=lambda x: x[2], reverse=True)`. -/
def insertByConfDesc (x : String × String × ℚ) :
    List (String × String × ℚ) → List (String × String × ℚ)
  | [] => [x]
  | y :: ys => if y.2.2 > x.2.2 then y :: insertByConfDesc x ys else x :: y :: ys

/-- Stable sort, descending by confidence. -/
def sortByConfDesc : List (String × String × ℚ) → List (String × String × ℚ)
  | [] => []
  | x :: xs => insertByConfDesc x (sortByConfDesc xs)

/-- The generic `while len(alternative_mccs) < 2` fill of the pattern
branch.  Each pass appends one generic entry and `break`s, so at most one
entry is ever added. -/
def wakiPatternGenericFill (top : String) (alts : List AltMcc) : List AltMcc :=
  if alts.length < 2 then
    if top ≠ "5999" then
      alts ++ [⟨"5999", "Miscellaneous and Specialty Retail Stores", 0.3, none⟩]
    else alts ++ [⟨"7299", "Miscellaneous Personal Services", 0.3, none⟩]
  else alts

/-- The ordered keyword map of `WakiAgent._fallback_classify`
(keyword, mcc, description), in dictionary insertion order. -/
def wakiKeywordMap : List (String × String × String) :=
  [ ("restaurant", ("5812", "Eating places and Restaurants")),
    ("café", ("5812", "Eating places and Restaurants")),
    ("cafe", ("5812", "Eating places and Restaurants")),
    ("coffee", ("5812", "Eating places and Restaurants")),
    ("pizza", ("5812", "Eating places and Restaurants")),
    ("food", ("5499", "Misc. Food Stores – Convenience Stores and Specialty Markets")),
    ("grocery", ("5411", "Grocery Stores, Supermarkets")),
    ("market", ("5411", "Grocery Stores, Supermarkets")),
    ("supermarket", ("5411", "Grocery Stores, Supermarkets")),
    ("electronics", ("5732", "Electronics Sales")),
    ("computer", ("5045", "Computers, Computer Peripheral Equipment, Software")),
    ("software", ("5045", "Computers, Computer Peripheral Equipment, Software")),
    ("hardware", ("5251", "Hardware Stores")),
    ("clothing", ("5651", "Family Clothing Stores")),
    ("apparel", ("5699", "Miscellaneous Apparel and Accessory Shops")),
    ("fashion", ("5699", "Miscellaneous Apparel and Accessory Shops")),
    ("shoe", ("5661", "Shoe Stores")),
    ("footwear", ("5661", "Shoe Stores")),
    ("salon", ("7230", "Barber and Beauty Shops")),
    ("spa", ("7298", "Health and Beauty Shops")),
    ("beauty", ("7298", "Health and Beauty Shops")),
    ("barber", ("7230", "Barber and Beauty Shops")),
    ("hair", ("7230", "Barber and Beauty Shops")),
    ("doctor", ("8011", "Doctors and Physicians")),
    ("medical", ("8099", "Medical Services and Health Practitioners")),
    ("dentist", ("8021", "Dentists and Orthodontists")),
    ("dental", ("8021", "Dentists and Orthodontists")),
    ("clean", ("7349", "Cleaning and Maintenance, Janitorial Services")),
    ("repair", ("7699", "Repair Shops and Related Services –Miscellaneous")),
    ("auto", ("7538", "Automotive Service Shops")),
    ("car", ("7538", "Automotive Service Shops")),
    ("hotel", ("7011", "Lodging – Hotels, Motels, Resorts")),
    ("motel", ("7011", "Lodging – Hotels, Motels, Resorts")),
    ("pet", ("5995", "Pet Shops, Pet Foods, and Supplies Stores")),
    ("toy", ("5945", "Hobby, Toy, and Game Shops")) ]

/-- The pattern-branch decision of `WakiAgent._fallback_classify` given the
non-empty, already sorted pattern matches. -/
def wakiPatternDecision (top : String × String × ℚ) (rest : List (String × String × ℚ)) :
    WakiDecision :=
  let alts0 : List AltMcc :=
    (rest.take 2).map fun m => ⟨m.1, m.2.1, m.2.2 - 0.2, none⟩
  let alts := wakiPatternGenericFill top.1 alts0
  { mcc_code := top.1
    mcc_description := top.2.1
    confidence := top.2.2
    alternative_mccs := alts
    industry_classification := waki_determine_industry top.1
    analysis := "Identified business type from name patterns"
    reasoning := "Pattern matching identified keywords related to " ++ top.2.1 }

/-- The keyword-map decision of `WakiAgent._fallback_classify`. -/
def wakiKeywordDecision (kw : String × String × String) : WakiDecision :=
  { mcc_code := kw.2.1
    mcc_description := kw.2.2
    confidence := 0.7
    alternative_mccs :=
      [⟨"5999", "Miscellaneous and Specialty Retail Stores", 0.3, none⟩,
       ⟨"7299", "Miscellaneous Personal Services", 0.2, none⟩]
    industry_classification := waki_determine_industry kw.2.1
    analysis := "Found keyword \"" ++ kw.1 ++ "\" in merchant name"
    reasoning := "Keyword matching identified \"" ++ kw.1 ++ "\" related to " ++ kw.2.2 }

/-- Core of `WakiAgent._fallback_classify`: the body only ever reads the
merchant name, legal name and original MCC code from the record. -/
def waki_fallback_core (merchant_name legal_name original_mcc : String) : WakiDecision :=
  if original_mcc ≠ "" ∧ wakiMccMem original_mcc then
    { mcc_code := original_mcc
      mcc_description := wakiMccDesc original_mcc
      confidence := 0.7
      alternative_mccs :=
        [⟨"5999", "Miscellaneous and Specialty Retail Stores", 0.3, none⟩,
         ⟨"7299", "Miscellaneous Personal Services", 0.2, none⟩]
      industry_classification := waki_determine_industry original_mcc
      analysis := "Using provided original MCC code"
      reasoning := "Classification based on original MCC code" }
  else
    let combined : List Char :=
      lowerC merchant_name.data ++ ' ' :: lowerC legal_name.data
    let patMatches : List (String × String × ℚ) :=
      wakiPatterns.filterMap fun e => if wbAny e.1 combined then some e.2 else none
    match sortByConfDesc patMatches with
    | top :: rest => wakiPatternDecision top rest
    | [] =>
      match wakiKeywordMap.find? (fun kw => containsC kw.1.data combined) with
      | some kw => wakiKeywordDecision kw
      | none =>
        if containsC (" ".data) merchant_name.data ∧
           2 < (merchant_name.data.takeWhile (fun c => c ≠ ' ')).length then
          { mcc_code := "7299"
            mcc_description := "Miscellaneous Personal Services"
            confidence := 0.6
            alternative_mccs :=
              [⟨"5999", "Miscellaneous and Specialty Retail Stores", 0.3, none⟩,
               ⟨"7399", "Business Services", 0.2, none⟩]
            industry_classification := "Services"
            analysis := "Unable to identify specific business type from name"
            reasoning := "Name suggests a personal or professional service business" }
        else
          { mcc_code := "5999"
            mcc_description := "Miscellaneous and Specialty Retail Stores"
            confidence := 0.6
            alternative_mccs :=
              [⟨"7299", "Miscellaneous Personal Services", 0.3, none⟩,
               ⟨"7399", "Business Services", 0.2, none⟩]
            industry_classification := "Retail/Merchants"
            analysis := "Unable to identify specific business type from name"
            reasoning := "Defaulting to retail classification based on statistical prevalence" }

/-- `WakiAgent._fallback_classify` applied to a full merchant record: the
first statements extract `merchant_name`, `legal_name` and
`original_mcc_code` and nothing else is read from the record. -/
def waki_fallback_classify (md : MerchantData) : WakiDecision :=
  waki_fallback_core md.merchant_name (optStr md.legal_name) (optStr md.original_mcc_code)

/-! ## Matheus agent: code table (`MatheusAgent._initialize_default_mcc_data`)

With `mcc_list.csv` absent, `_load_mcc_data` falls back to the hardcoded
dictionary below (insertion order preserved — it drives iteration order of
the keyword scoring). -/

/-- The Matheus agent's default MCC table (code, description). -/
def matheus_mcc_data : List (String × String) :=
  [ ("0780", "Landscaping & Lawn Care"),
    ("1520", "General Contractors"),
    ("1711", "HVAC & Plumbing"),
    ("1731", "Electrical"),
    ("1740", "Masonry & Tile"),
    ("1750", "Carpentry"),
    ("1761", "Roofing & Siding"),
    ("1771", "Concrete"),
    ("1799", "Special Trade"),
    ("4789", "Transportation"),
    ("5211", "Building Materials"),
    ("5251", "Hardware"),
    ("5311", "Department Stores"),
    ("5399", "Other Retail"),
    ("5411", "Grocery Stores, Supermarkets"),
    ("5499", "Food & Convenience"),
    ("5533", "Auto Parts"),
    ("5541", "Gas & Fuel"),
    ("5651", "Apparel"),
    ("5661", "Footwear"),
    ("5699", "Clothing & Accessories"),
    ("5812", "Restaurants"),
    ("5814", "Fast Food"),
    ("5940", "Bike Shops"),
    ("5941", "Sporting Goods"),
    ("5942", "Bookstores"),
    ("5943", "Office & Stationery"),
    ("5945", "Hobbies & Toys"),
    ("5947", "Gifts & Souvenirs"),
    ("5970", "Arts & Crafts"),
    ("5977", "Cosmetics"),
    ("5992", "Florists"),
    ("5995", "Pet Supplies"),
    ("7011", "Hotels & Lodging"),
    ("7210", "Laundry & Cleaning"),
    ("7211", "Laundry Services–Family and Commercial"),
    ("7216", "Dry Cleaners"),
    ("7221", "Photography"),
    ("7230", "Salons & Barbers"),
    ("7251", "Shoe Repair & Shine"),
    ("7298", "Health and Beauty Spas"),
    ("7299", "Other Services"),
    ("7399", "Other B2B Services"),
    ("7542", "Car Wash"),
    ("7549", "Towing"),
    ("7699", "Repair Shops & Services"),
    ("7997", "Country Clubs & Private Golf Courses"),
    ("8099", "Medical & Health Services"),
    ("8299", "Educational Services"),
    ("5964", "Direct Marketing - Catalog Merchants"),
    ("5732", "Electronics Stores"),
    ("5912", "Drug Stores and Pharmacies"),
    ("5200", "Home Supply Warehouse Stores") ]

/-- Python `code in self.mcc_data` for the Matheus agent. -/
def matheusMccMem (code : String) : Bool :=
  matheus_mcc_data.any (fun e => e.1 = code)

/-- Python `self.mcc_data[code]` for the Matheus agent (empty string when
absent; only called after a membership test). -/
def matheusMccDesc (code : String) : String :=
  match matheus_mcc_data.find? (fun e => e.1 = code) with
  | some e => e.2
  | none => ""

/-- The catch-all MCC set of the Matheus agent
(`self.catch_all_mccs`). -/
def catch_all_mccs : List String := ["7299", "7399", "5399", "1799", "7999", "8999"]

/-- `MatheusAgent._determine_industry`. -/
def matheus_determine_industry (mcc : String) : String :=
  if mcc = "" ∨ mcc.data.length < 2 then "Unknown"
  else if pyStartsWith mcc ("5") then "Retail/Merchants"
  else if pyStartsWith mcc ("7") then "Services"
  else if pyStartsWith mcc ("8") then "Professional Services/Healthcare"
  else if pyStartsWith mcc ("4") then "Transportation/Utilities"
  else if pyStartsWith mcc ("6") then "Financial Services"
  else if pyStartsWith mcc ("9") then "Government Services"
  else "Other Business Categories"

/-! ## Matheus agent: keyword scoring and fallback -/

/-- Keyword score of one description against a lower-cased merchant name:
`sum(1 for keyword in desc.lower().split() if len(keyword) > 3 and keyword
in merchant_lower)`. -/
def keywordScore (desc : String) (merchantLower : List Char) : Nat :=
  ((pySplitWs (lowerC desc.data)).filter fun kw =>
    3 < kw.length && containsC kw merchantLower).length

/-- Python `max(items, key=lambda x: x[1])`: first item with maximal
score. -/
def firstMaxByScore (x : String × Nat) : List (String × Nat) → String × Nat
  | [] => x
  | y :: ys => firstMaxByScore (if y.2 > x.2 then y else x) ys

/-- The dictionary shape produced by `MatheusAgent._classify_tier1` and
`MatheusAgent._fallback_classify` (a first-tier result). -/
structure Tier1Out where
  suggested_mcc : String
  mcc_suggestion_description : String
  confidence : ℚ
  analysis : List String
  requires_full_search : Bool
  is_non_descriptive : Bool
  may_be_high_risk : Bool
  suspicious_classification : Bool
  deriving Repr, DecidableEq

/-- `MatheusAgent._fallback_classify`.  Reads `merchant_name` plus the
`original_mcc_code` and `mcc_description` entries of `**merchant_data`;
the `legal_name` parameter is unused by the body. -/
def matheus_fallback_core (merchant_name : String)
    (original_mcc : Option String) (original_mcc_desc : Option String) : Tier1Out :=
  if (optStr original_mcc) ≠ "" ∧ matheusMccMem (optStr original_mcc) then
    { suggested_mcc := optStr original_mcc
      mcc_suggestion_description :=
        if optStr original_mcc_desc ≠ "" then optStr original_mcc_desc
        else matheusMccDesc (optStr original_mcc)
      confidence := 0.60
      analysis := ["Using provided MCC code as fallback classification."]
      suspicious_classification := false
      is_non_descriptive := false
      may_be_high_risk := false
      requires_full_search := false }
  else
    let merchantLower := lowerC merchant_name.data
    let mcc_scores : List (String × Nat) :=
      matheus_mcc_data.filterMap fun e =>
        let sc := keywordScore e.2 merchantLower
        if sc > 0 then some (e.1, sc) else none
    match mcc_scores with
    | [] =>
      { suggested_mcc := "5812"
        mcc_suggestion_description := "Eating Places, Restaurants"
        confidence := 0.50
        analysis := ["No clear business category identified from name. Using common restaurant category."]
        suspicious_classification := false
        is_non_descriptive := true
        may_be_high_risk := false
        requires_full_search := true }
    | s :: ss =>
      let top := firstMaxByScore s ss
      { suggested_mcc := top.1
        mcc_suggestion_description := matheusMccDesc top.1
        confidence := min 0.85 (0.5 + (top.2 : ℚ) * 0.1)
        analysis := ["Based on keywords in the business name, classified as "
          ++ matheusMccDesc top.1 ++ "."]
        suspicious_classification := false
        is_non_descriptive := false
        may_be_high_risk := false
        requires_full_search := false }

/-- `MatheusAgent._fallback_classify` on a full merchant record. -/
def matheus_fallback_classify (md : MerchantData) : Tier1Out :=
  matheus_fallback_core md.merchant_name md.original_mcc_code md.mcc_description

/-! ## Matheus agent: alternative generation
(`MatheusAgent.generate_alternative_mccs`) -/

/-- Stable descending insertion by score
(Python stable `candidates.sort(key=lambda x: x[2], reverse=True)`). -/
def insertByScoreDesc (x : String × String × Nat) :
    List (String × String × Nat) → List (String × String × Nat)
  | [] => [x]
  | y :: ys => if y.2.2 > x.2.2 then y :: insertByScoreDesc x ys else x :: y :: ys

/-- Stable sort, descending by score. -/
def sortByScoreDesc : List (String × String × Nat) → List (String × String × Nat)
  | [] => []
  | x :: xs => insertByScoreDesc x (sortByScoreDesc xs)

/-- The keyword-scored candidates of `generate_alternative_mccs`:
every table entry other than the primary whose description keywords hit
the merchant name. -/
def altScored (primary_mcc : String) (merchant_name : String)
    (mcc_data : List (String × String)) : List (String × String × Nat) :=
  mcc_data.filterMap fun e =>
    if e.1 = primary_mcc then none
    else if keywordScore e.2 (lowerC merchant_name.data) > 0 then
      some (e.1, (e.2, keywordScore e.2 (lowerC merchant_name.data)))
    else none

/-- The candidate list of `generate_alternative_mccs`: the scored entries,
topped up with the three generic candidates (each skipped when equal to
the primary) when fewer than two were scored. -/
def altCandidates (primary_mcc : String) (merchant_name : String)
    (mcc_data : List (String × String)) : List (String × String × Nat) :=
  if (altScored primary_mcc merchant_name mcc_data).length < 2 then
    altScored primary_mcc merchant_name mcc_data
      ++ (if primary_mcc ≠ "5812" then [("5812", ("Eating Places, Restaurants", 0))] else [])
      ++ (if primary_mcc ≠ "5399" then [("5399", ("Other Retail", 0))] else [])
      ++ (if primary_mcc ≠ "7399" then [("7399", ("Other B2B Services", 0))] else [])
  else altScored primary_mcc merchant_name mcc_data

/-- `MatheusAgent.generate_alternative_mccs`: keyword-scored candidates
excluding the primary, topped up with generics, stably sorted by score,
top two taken with score-derived confidences. -/
def generate_alternative_mccs (primary_mcc : String) (merchant_name : String)
    (mcc_data : List (String × String)) : List AltMcc :=
  ((sortByScoreDesc (altCandidates primary_mcc merchant_name mcc_data)).take 2).map fun c =>
    ⟨c.1, c.2.1, 0.3 + min 0.4 ((c.2.2 : ℚ) * 0.1), none⟩

/-! ## Matheus agent: three-tier classification (`MatheusAgent.classify`)

The three tier invocations call the text-generation service; they are
modelled as oracle inputs holding whatever dictionary the corresponding
`_classify_tier1` / `_classify_risk_tier` / `_classify_tier3` call would
return (parsed reply or fallback result).  `MatheusRun` additionally
records which tiers were invoked. -/

/-- The dictionary shape returned by `MatheusAgent._classify_risk_tier`.
`risk_level` is `none` when the tier fell back to `_fallback_classify`,
whose dictionary has no `risk_level` key. -/
structure RiskOut where
  suggested_mcc : String
  mcc_suggestion_description : String
  confidence : ℚ
  analysis : List String
  risk_level : Option String
  requires_full_search : Bool
  suspicious_classification : Bool
  deriving Repr, DecidableEq

/-- The dictionary shape returned by `MatheusAgent._classify_tier3`, as
read by `classify`. -/
structure Tier3Out where
  suggested_mcc : String
  mcc_suggestion_description : String
  confidence : ℚ
  analysis : List String
  suspicious_classification : Bool
  deriving Repr, DecidableEq

/-- The final dictionary returned by `MatheusAgent.classify`.  The
empty-name early return lacks the `suspicious_classification` and
`mcc_changed` keys, hence the `Option Bool` fields. -/
structure MatheusResult where
  mcc_code : String
  mcc_description : String
  confidence : ℚ
  analysis : List String
  suspicious_classification : Option Bool
  alternative_mccs : List AltMcc
  mcc_changed : Option Bool
  industry_classification : String
  reasoning : String
  deriving Repr, DecidableEq

/-- A full run of `MatheusAgent.classify`: the returned dictionary plus
which tier invocations were performed. -/
structure MatheusRun where
  result : MatheusResult
  ranTier1 : Bool
  ranRisk : Bool
  ranFull : Bool
  deriving Repr, DecidableEq

/-- The message appended when a catch-all code forces a deeper search. -/
def catchAllMsg : String :=
  "Suggested MCC is a general catch-all category. Attempting to find a more specific classification."

/-- Catch-all override applied to the tier-1 result: a catch-all code with
confidence below 0.98 forces `requires_full_search`. -/
def tier1CatchAllAdjust (t : Tier1Out) : Tier1Out :=
  if t.suggested_mcc ∈ catch_all_mccs ∧ t.confidence < 0.98 then
    { t with requires_full_search := true, analysis := t.analysis ++ [catchAllMsg] }
  else t

/-- Catch-all override applied to the risk-tier result. -/
def riskCatchAllAdjust (t : RiskOut) : RiskOut :=
  if t.suggested_mcc ∈ catch_all_mccs ∧ t.confidence < 0.98 then
    { t with requires_full_search := true, analysis := t.analysis ++ [catchAllMsg] }
  else t

/-- Python `" ".join(strings)`. -/
def joinSpStr (ss : List String) : String :=
  String.mk (joinSp (ss.map String.data))

/-- The post-processing applied to every non-default `final_result`:
alternatives, `mcc_changed`, industry and joined reasoning. -/
def matheusFinalize (merchant_name mcc code desc : String) (conf : ℚ)
    (analysis : List String) (susp : Bool) : MatheusResult :=
  { mcc_code := code
    mcc_description := desc
    confidence := conf
    analysis := analysis
    suspicious_classification := some susp
    alternative_mccs := generate_alternative_mccs code merchant_name matheus_mcc_data
    mcc_changed := some (decide (code ≠ mcc))
    industry_classification := matheus_determine_industry code
    reasoning :=
      if analysis.isEmpty then "Classification based on merchant name analysis"
      else joinSpStr analysis }

/-- The fixed default decision returned for an empty/whitespace merchant
name (no tier runs, no post-processing). -/
def matheusEmptyNameResult : MatheusResult :=
  { mcc_code := "5812"
    mcc_description := "Eating Places, Restaurants"
    confidence := 0.5
    analysis := ["No merchant name provided."]
    suspicious_classification := none
    alternative_mccs :=
      [⟨"5399", "Other Retail", 0.3, none⟩,
       ⟨"7399", "Other B2B Services", 0.2, none⟩]
    mcc_changed := none
    industry_classification := "Restaurants"
    reasoning := "Default classification due to missing merchant name." }

/-- `MatheusAgent.classify`: the three-tier escalation state machine over
the oracle tier results `t1`, `risk`, `t3`. -/
def matheus_classify (md : MerchantData) (t1 : Tier1Out) (risk : RiskOut)
    (t3 : Tier3Out) : MatheusRun :=
  if pyStrip md.merchant_name = "" then
    { result := matheusEmptyNameResult, ranTier1 := false, ranRisk := false, ranFull := false }
  else
    let mcc := md.original_mcc_code.getD ("5812")
    let mcc_description := md.mcc_description.getD ("Eating Places, Restaurants")
    if t1.is_non_descriptive then
      { result := matheusFinalize md.merchant_name mcc mcc mcc_description 1.0
          (("NON-DESCRIPTIVE NAME MCC ACCEPTED") :: t1.analysis) false
        ranTier1 := true, ranRisk := false, ranFull := false }
    else
      let t1a := tier1CatchAllAdjust t1
      if t1a.confidence ≥ 0.7 ∧ ¬t1a.requires_full_search ∧ ¬t1a.may_be_high_risk then
        { result := matheusFinalize md.merchant_name mcc t1a.suggested_mcc
            t1a.mcc_suggestion_description t1a.confidence t1a.analysis
            t1a.suspicious_classification
          ranTier1 := true, ranRisk := false, ranFull := false }
      else
        let r := riskCatchAllAdjust risk
        if ¬r.requires_full_search ∧ r.confidence ≥ 0.7 then
          let analysis :=
            if r.risk_level.getD ("approved") ≠ "approved" then
              ("ATTENTION: Business classified as " ++ upperStr (r.risk_level.getD ("")))
                :: r.analysis
            else r.analysis
          { result := matheusFinalize md.merchant_name mcc r.suggested_mcc
              r.mcc_suggestion_description r.confidence analysis
              (r.suspicious_classification || t1.suspicious_classification)
            ranTier1 := true, ranRisk := true, ranFull := false }
        else
          { result := matheusFinalize md.merchant_name mcc t3.suggested_mcc
              t3.mcc_suggestion_description t3.confidence t3.analysis
              t3.suspicious_classification
            ranTier1 := true, ranRisk := true, ranFull := true }

/-! ## Evaluation harness (`MCCEvaluator.evaluate`)

One input row with its named CSV fields (a missing field reads as `""`
via `merchant.get(..., "")`), agents as named classification oracles that
either return a decision dictionary or raise, and the per-record /
per-agent loop with its skip and error policies. -/

/-- One input row of the evaluation CSV. -/
structure EvalRecord where
  merchantName : String := ""
  legalName : String := ""
  actualMcc : String := ""
  mccDescription : String := ""
  originalMccCode : String := ""
  aiOriginalDescription : String := ""
  deriving Repr, DecidableEq

/-- The three dictionary entries the evaluator reads from a classification
result. -/
structure AgentDecision where
  mcc_code : String
  mcc_description : String
  confidence : ℚ
  deriving Repr, DecidableEq

/-- A Python exception escaping `agent.classify`, split by whether it is a
`TypeError` (which triggers the basic-parameter retry under
`pass_full_data`). -/
inductive PyErr where
  | typeError (msg : String)
  | otherError (msg : String)
  deriving Repr, DecidableEq

/-- Python `str(e)`. -/
def PyErr.str : PyErr → String
  | typeError m => m
  | otherError m => m

/-- An agent under evaluation: its name and its `classify` behaviour with
full merchant data and with basic parameters only. -/
structure EvalAgent where
  name : String
  classifyFull : EvalRecord → Except PyErr AgentDecision
  classifyBasic : EvalRecord → Except PyErr AgentDecision

/-- The evaluator's classification attempt: with `pass_full_data` a
`TypeError` from the full-data call falls back to basic parameters; any
other outcome (or any error of the basic call) is handed to the outer
`except`. -/
def runAgentClassify (passFull : Bool) (a : EvalAgent) (r : EvalRecord) :
    Except PyErr AgentDecision :=
  if passFull then
    match a.classifyFull r with
    | .error (.typeError _) => a.classifyBasic r
    | res => res
  else a.classifyBasic r

/-- The per-agent column group of one output row. -/
structure AgentCols where
  agentName : String
  suggestedMcc : String
  mccDescription : String
  confidence : ℚ
  matchFlag : String
  deriving Repr, DecidableEq

/-- One output row: base columns plus one column group per agent. -/
structure OutRow where
  merchantName : String
  legalName : String
  actualMcc : String
  mccDescription : String
  cols : List AgentCols
  deriving Repr, DecidableEq

/-- Per-agent metrics: `(name, correct, total)`. -/
abbrev Metrics := List (String × Nat × Nat)

/-- Build the initial metrics dictionary
(`{agent.name: {"correct": 0, "total": 0} for agent in self.agents}`). -/
def initMetrics (agents : List EvalAgent) : Metrics :=
  agents.foldl (fun m a => if m.any (fun e => e.1 = a.name) then m else m ++ [(a.name, 0, 0)]) []

/-- Bump the named agent's counters: `total += 1`, and `correct += 1` on a
match. -/
def bumpMetrics (m : Metrics) (name : String) (isCorrect : Bool) : Metrics :=
  m.map fun e =>
    if e.1 = name then (e.1, (e.2.1 + (if isCorrect then 1 else 0), e.2.2 + 1)) else e

/-- The column group one agent contributes for one record: the decision's
code/description/confidence and the match flag on success, the
`"ERROR"`/`str(e)`/`0.0`/`"Error"` sentinel on an exception. -/
def agentCol (passFull : Bool) (r : EvalRecord) (a : EvalAgent) : AgentCols :=
  match runAgentClassify passFull a r with
  | .ok d =>
    { agentName := a.name
      suggestedMcc := d.mcc_code
      mccDescription := d.mcc_description
      confidence := d.confidence
      matchFlag := if pyStrip d.mcc_code = pyStrip r.actualMcc then "Yes" else "No" }
  | .error e =>
    { agentName := a.name
      suggestedMcc := "ERROR"
      mccDescription := e.str
      confidence := 0
      matchFlag := "Error" }

/-- The metrics update one agent contributes for one record (none on an
exception — the `except` branch skips both counters). -/
def agentMetricUpdate (passFull : Bool) (r : EvalRecord) (m : Metrics) (a : EvalAgent) :
    Metrics :=
  match runAgentClassify passFull a r with
  | .ok d => bumpMetrics m a.name (pyStrip d.mcc_code = pyStrip r.actualMcc)
  | .error _ => m

/-- Accumulated evaluation state: output rows and metrics. -/
structure EvalState where
  rows : List OutRow
  metrics : Metrics

/-- Processing of one input record: rows with an empty merchant name or
empty ground-truth code are skipped outright; otherwise every agent
contributes one column group and (on success) its metric bumps. -/
def evaluator_process_record (passFull : Bool) (agents : List EvalAgent)
    (st : EvalState) (r : EvalRecord) : EvalState :=
  if r.merchantName = "" ∨ r.actualMcc = "" then st
  else
    { rows := st.rows ++
        [{ merchantName := r.merchantName
           legalName := r.legalName
           actualMcc := r.actualMcc
           mccDescription := r.mccDescription
           cols := agents.map (agentCol passFull r) }]
      metrics := agents.foldl (agentMetricUpdate passFull r) st.metrics }

/-- The full evaluation loop over all records. -/
def evaluator_run (passFull : Bool) (agents : List EvalAgent)
    (records : List EvalRecord) : EvalState :=
  records.foldl (evaluator_process_record passFull agents) ⟨[], initMetrics agents⟩

/-- Per-agent accuracy derived from the final metrics
(`correct / total if total > 0 else 0`). -/
def accuracyOf (m : Metrics) (name : String) : ℚ :=
  match m.find? (fun e => e.1 = name) with
  | some e => if 0 < e.2.2 then (e.2.1 : ℚ) / (e.2.2 : ℚ) else 0
  | none => 0

/-! ## Claims about the tiered classification strategy -/

/-- C1: in `MatheusAgent.classify`, whenever the tier-1 acceptance decision
is reached (non-blank name, name not judged non-descriptive), a tier-1
result whose code lies in the catch-all set with confidence below 0.98 has
`requires_full_search` forced to `true` — regardless of the flag the tier
reported — so tier 1 is never accepted and the risk tier runs; likewise a
risk-tier result with a catch-all code and confidence below 0.98 has the
flag forced, so the risk tier is never accepted and the full tier runs. -/
theorem c1_catch_all_forces_deeper_search (md : MerchantData) (t1 : Tier1Out)
    (risk : RiskOut) (t3 : Tier3Out)
    (hname : ¬ pyStrip md.merchant_name = "")
    (hnd : t1.is_non_descriptive = false) :
    (t1.suggested_mcc ∈ catch_all_mccs → t1.confidence < 0.98 →
      (tier1CatchAllAdjust t1).requires_full_search = true ∧
      (matheus_classify md t1 risk t3).ranRisk = true) ∧
    ((matheus_classify md t1 risk t3).ranRisk = true →
      risk.suggested_mcc ∈ catch_all_mccs → risk.confidence < 0.98 →
      (riskCatchAllAdjust risk).requires_full_search = true ∧
      (matheus_classify md t1 risk t3).ranFull = true) := by
  have hadj1 : t1.suggested_mcc ∈ catch_all_mccs → t1.confidence < 0.98 →
      (tier1CatchAllAdjust t1).requires_full_search = true := by
    intro h1 h2
    simp [tier1CatchAllAdjust, h1, h2]
  have hadjr : risk.suggested_mcc ∈ catch_all_mccs → risk.confidence < 0.98 →
      (riskCatchAllAdjust risk).requires_full_search = true := by
    intro h1 h2
    simp [riskCatchAllAdjust, h1, h2]
  constructor
  · intro h1 h2
    refine ⟨hadj1 h1 h2, ?_⟩
    have hflag := hadj1 h1 h2
    unfold matheus_classify
    simp only [hname, if_false, hnd, Bool.false_eq_true, ite_false]
    have hacc : ¬ ((tier1CatchAllAdjust t1).confidence ≥ 0.7 ∧
        ¬(tier1CatchAllAdjust t1).requires_full_search = true ∧
        ¬(tier1CatchAllAdjust t1).may_be_high_risk = true) := by
      intro hc
      exact hc.2.1 hflag
    simp only [hacc, ite_false]
    split <;> rfl
  · intro hran h1 h2
    refine ⟨hadjr h1 h2, ?_⟩
    have hflag := hadjr h1 h2
    by_cases hacc : ((tier1CatchAllAdjust t1).confidence ≥ 0.7 ∧
        ¬(tier1CatchAllAdjust t1).requires_full_search = true ∧
        ¬(tier1CatchAllAdjust t1).may_be_high_risk = true)
    · exfalso
      unfold matheus_classify at hran
      simp only [hname, if_false, hnd, Bool.false_eq_true, ite_false, hacc, ite_true] at hran
      simp at hran
    · have hraccept : ¬ (¬(riskCatchAllAdjust risk).requires_full_search = true ∧
          (riskCatchAllAdjust risk).confidence ≥ 0.7) := by
        intro hc
        exact hc.1 hflag
      unfold matheus_classify
      simp only [hname, if_false, hnd, Bool.false_eq_true, ite_false, hacc, hraccept]

/-- C1 witness: a concrete run where both overrides fire. -/
theorem c1_catch_all_forces_deeper_search_witness :
    ¬ pyStrip ("Books Etc") = "" ∧
    ("7299" : String) ∈ catch_all_mccs ∧ ((0.5 : ℚ) < 0.98) ∧
    ("7399" : String) ∈ catch_all_mccs ∧
    ((tier1CatchAllAdjust ⟨"7299", "Other Services", 0.5, [], false, false, false, false⟩).requires_full_search = true ∧
      (matheus_classify { merchant_name := "Books Etc" }
        ⟨"7299", "Other Services", 0.5, [], false, false, false, false⟩
        ⟨"7399", "Other B2B Services", 0.5, [], some "approved", false, false⟩
        ⟨"5942", "Bookstores", 0.9, [], false⟩).ranRisk = true) := by
  refine ⟨by decide, by decide, by norm_num, by decide, ?_⟩
  exact (c1_catch_all_forces_deeper_search { merchant_name := "Books Etc" }
    ⟨"7299", "Other Services", 0.5, [], false, false, false, false⟩
    ⟨"7399", "Other B2B Services", 0.5, [], some "approved", false, false⟩
    ⟨"5942", "Bookstores", 0.9, [], false⟩ (by decide) rfl).1 (by decide) (by norm_num)

/-- C2: when tier 1 judges the merchant name non-descriptive, the strategy
stops immediately — the risk tier and full tier never run — and the final
decision carries exactly the supplied prior code with confidence 1.0. -/
theorem c2_non_descriptive_keeps_prior (md : MerchantData) (t1 : Tier1Out)
    (risk : RiskOut) (t3 : Tier3Out) (p : String)
    (hname : ¬ pyStrip md.merchant_name = "")
    (hnd : t1.is_non_descriptive = true)
    (hp : md.original_mcc_code = some p) :
    (matheus_classify md t1 risk t3).result.mcc_code = p ∧
    (matheus_classify md t1 risk t3).result.confidence = 1 ∧
    (matheus_classify md t1 risk t3).ranRisk = false ∧
    (matheus_classify md t1 risk t3).ranFull = false := by
  unfold matheus_classify
  simp [hname, hnd, hp, matheusFinalize]
  norm_num

/-- C2 witness: a concrete non-descriptive-name run retaining prior code
"5977". -/
theorem c2_non_descriptive_keeps_prior_witness :
    ¬ pyStrip ("John Smith LLC") = "" ∧
    ((matheus_classify { merchant_name := "John Smith LLC", original_mcc_code := some "5977" }
        ⟨"5651", "Apparel", 0.4, [], false, true, false, false⟩
        ⟨"7399", "Other B2B Services", 0.5, [], some "approved", false, false⟩
        ⟨"5942", "Bookstores", 0.9, [], false⟩).result.mcc_code = "5977" ∧
      (matheus_classify { merchant_name := "John Smith LLC", original_mcc_code := some "5977" }
        ⟨"5651", "Apparel", 0.4, [], false, true, false, false⟩
        ⟨"7399", "Other B2B Services", 0.5, [], some "approved", false, false⟩
        ⟨"5942", "Bookstores", 0.9, [], false⟩).result.confidence = 1 ∧
      (matheus_classify { merchant_name := "John Smith LLC", original_mcc_code := some "5977" }
        ⟨"5651", "Apparel", 0.4, [], false, true, false, false⟩
        ⟨"7399", "Other B2B Services", 0.5, [], some "approved", false, false⟩
        ⟨"5942", "Bookstores", 0.9, [], false⟩).ranRisk = false ∧
      (matheus_classify { merchant_name := "John Smith LLC", original_mcc_code := some "5977" }
        ⟨"5651", "Apparel", 0.4, [], false, true, false, false⟩
        ⟨"7399", "Other B2B Services", 0.5, [], some "approved", false, false⟩
        ⟨"5942", "Bookstores", 0.9, [], false⟩).ranFull = false) :=
  ⟨by decide,
   c2_non_descriptive_keeps_prior
     { merchant_name := "John Smith LLC", original_mcc_code := some "5977" }
     ⟨"5651", "Apparel", 0.4, [], false, true, false, false⟩
     ⟨"7399", "Other B2B Services", 0.5, [], some "approved", false, false⟩
     ⟨"5942", "Bookstores", 0.9, [], false⟩ "5977" (by decide) rfl rfl⟩

/-- C10: the implicit edge case of the non-descriptive override — with no
prior code supplied, `mcc` defaults to the built-in "5812" and the
non-descriptive branch returns it with confidence 1.0 (with the default
description when none was supplied), never a name-derived code. -/
theorem c10_non_descriptive_without_prior_defaults (md : MerchantData) (t1 : Tier1Out)
    (risk : RiskOut) (t3 : Tier3Out)
    (hname : ¬ pyStrip md.merchant_name = "")
    (hnd : t1.is_non_descriptive = true)
    (hp : md.original_mcc_code = none) :
    (matheus_classify md t1 risk t3).result.mcc_code = "5812" ∧
    (matheus_classify md t1 risk t3).result.confidence = 1 ∧
    (md.mcc_description = none →
      (matheus_classify md t1 risk t3).result.mcc_description = "Eating Places, Restaurants") := by
  unfold matheus_classify
  simp [hname, hnd, hp, matheusFinalize]
  exact ⟨by norm_num, fun h => by simp [h]⟩

/-- C10 witness: a concrete non-descriptive-name run with no prior code. -/
theorem c10_non_descriptive_without_prior_defaults_witness :
    ¬ pyStrip ("Maria Garcia") = "" ∧
    ((matheus_classify { merchant_name := "Maria Garcia" }
        ⟨"5651", "Apparel", 0.4, [], false, true, false, false⟩
        ⟨"7399", "Other B2B Services", 0.5, [], some "approved", false, false⟩
        ⟨"5942", "Bookstores", 0.9, [], false⟩).result.mcc_code = "5812" ∧
      (matheus_classify { merchant_name := "Maria Garcia" }
        ⟨"5651", "Apparel", 0.4, [], false, true, false, false⟩
        ⟨"7399", "Other B2B Services", 0.5, [], some "approved", false, false⟩
        ⟨"5942", "Bookstores", 0.9, [], false⟩).result.confidence = 1 ∧
      (({ merchant_name := "Maria Garcia" } : MerchantData).mcc_description = none →
        (matheus_classify { merchant_name := "Maria Garcia" }
          ⟨"5651", "Apparel", 0.4, [], false, true, false, false⟩
          ⟨"7399", "Other B2B Services", 0.5, [], some "approved", false, false⟩
          ⟨"5942", "Bookstores", 0.9, [], false⟩).result.mcc_description =
            "Eating Places, Restaurants")) :=
  ⟨by decide,
   c10_non_descriptive_without_prior_defaults { merchant_name := "Maria Garcia" }
     ⟨"5651", "Apparel", 0.4, [], false, true, false, false⟩
     ⟨"7399", "Other B2B Services", 0.5, [], some "approved", false, false⟩
     ⟨"5942", "Bookstores", 0.9, [], false⟩ (by decide) rfl rfl⟩

/-! ## Claims about empty-name handling (C6) -/

/-- C6 counterexample: the Waki strategy has no empty-name guard — already
in its service-free path, two queries with an empty merchant name yield
different decisions depending on the supplied prior code (prior "5411" is
returned with confidence 0.7), so the result is not a fixed default
decision. -/
theorem c6_counterexample_waki_empty_name_not_default :
    (waki_fallback_classify { merchant_name := "", original_mcc_code := some "5411" }).mcc_code
      = "5411" ∧
    (waki_fallback_classify { merchant_name := "", original_mcc_code := some "5411" }).confidence
      = 0.7 ∧
    (waki_fallback_classify { merchant_name := "" }).mcc_code = "5999" ∧
    waki_fallback_classify { merchant_name := "", original_mcc_code := some "5411" } ≠
      waki_fallback_classify { merchant_name := "" } := by
  refine ⟨by decide, rfl, by decide, fun h => ?_⟩
  have hc := congrArg WakiDecision.mcc_code h
  revert hc
  decide

/-- C6 amended: the Matheus strategy returns its fixed default decision for
every empty/whitespace-only merchant name without invoking any tier; the
Waki strategy performs no such check — in its service-free path an
empty-name query with no legal name and no prior code yields its generic
retail default, while a valid prior code is echoed instead. -/
theorem c6_empty_name_policy (md : MerchantData) (t1 : Tier1Out) (risk : RiskOut)
    (t3 : Tier3Out) (wd : MerchantData)
    (hname : pyStrip md.merchant_name = "")
    (hw : wd.merchant_name = "") (hwl : wd.legal_name = none)
    (hwp : wd.original_mcc_code = none) :
    matheus_classify md t1 risk t3 =
      { result := matheusEmptyNameResult, ranTier1 := false, ranRisk := false,
        ranFull := false } ∧
    (waki_fallback_classify wd).mcc_code = "5999" ∧
    (waki_fallback_classify wd).confidence = 0.6 := by
  constructor
  · unfold matheus_classify
    rw [if_pos hname]
  · unfold waki_fallback_classify
    rw [hw, hwl, hwp]
    exact ⟨by decide, rfl⟩

/-- C6 witness: concrete whitespace-only and empty-name queries. -/
theorem c6_empty_name_policy_witness :
    pyStrip ("  ") = "" ∧
    (matheus_classify { merchant_name := "  " }
        ⟨"5942", "Bookstores", 0.9, [], false, false, false, false⟩
        ⟨"7399", "Other B2B Services", 0.5, [], some "approved", false, false⟩
        ⟨"5942", "Bookstores", 0.9, [], false⟩ =
      { result := matheusEmptyNameResult, ranTier1 := false, ranRisk := false,
        ranFull := false } ∧
      (waki_fallback_classify { merchant_name := "" }).mcc_code = "5999" ∧
      (waki_fallback_classify { merchant_name := "" }).confidence = 0.6) :=
  ⟨by decide,
   c6_empty_name_policy { merchant_name := "  " }
     ⟨"5942", "Bookstores", 0.9, [], false, false, false, false⟩
     ⟨"7399", "Other B2B Services", 0.5, [], some "approved", false, false⟩
     ⟨"5942", "Bookstores", 0.9, [], false⟩
     { merchant_name := "" } (by decide) rfl rfl rfl⟩

/-! ## Claims about the evaluation harness (C7, C8) -/

/-- C7: a record with an empty merchant name or empty ground-truth code is
skipped: processing it leaves the evaluation state (output rows and every
agent's correct/total counters) unchanged, and a full run with the record
present equals the run with it removed. -/
theorem c7_skip_policy (passFull : Bool) (agents : List EvalAgent)
    (xs ys : List EvalRecord) (r : EvalRecord) (st : EvalState)
    (h : r.merchantName = "" ∨ r.actualMcc = "") :
    evaluator_process_record passFull agents st r = st ∧
    evaluator_run passFull agents (xs ++ r :: ys) = evaluator_run passFull agents (xs ++ ys) := by
  have hskip : ∀ s, evaluator_process_record passFull agents s r = s := by
    intro s
    unfold evaluator_process_record
    rw [if_pos h]
  refine ⟨hskip st, ?_⟩
  unfold evaluator_run
  rw [List.foldl_append, List.foldl_append, List.foldl_cons, hskip]

/-- C7 witness: a two-record run in which the empty-name record contributes
nothing. -/
theorem c7_skip_policy_witness :
    (({ merchantName := "", actualMcc := "5812" } : EvalRecord).merchantName = "" ∨
      ({ merchantName := "", actualMcc := "5812" } : EvalRecord).actualMcc = "") ∧
    evaluator_run false [] [{ merchantName := "City Grocery", actualMcc := "5411" },
        { merchantName := "", actualMcc := "5812" }] =
      evaluator_run false [] [{ merchantName := "City Grocery", actualMcc := "5411" }] :=
  ⟨Or.inl rfl,
   (c7_skip_policy false [] [{ merchantName := "City Grocery", actualMcc := "5411" }] []
     { merchantName := "", actualMcc := "5812" } ⟨[], initMetrics []⟩ (Or.inl rfl)).2⟩

/-- C8: when one agent's classification of one (non-skipped) record raises,
the exception is absorbed locally: that agent's column group in the row is
the sentinel (`"ERROR"`, the exception text, confidence 0, match flag
`"Error"`), the agent's counters are not bumped (the record's metric
update equals that of the other agents alone), and the fold continues with
the remaining records. -/
theorem c8_error_sentinel (r : EvalRecord) (a : EvalAgent) (e : PyErr)
    (pre post : List EvalAgent) (st : EvalState) (ys : List EvalRecord)
    (hskip : ¬(r.merchantName = "" ∨ r.actualMcc = ""))
    (herr : a.classifyBasic r = .error e) :
    agentCol false r a =
      { agentName := a.name, suggestedMcc := "ERROR", mccDescription := e.str,
        confidence := 0, matchFlag := "Error" } ∧
    (∀ m, agentMetricUpdate false r m a = m) ∧
    (evaluator_process_record false (pre ++ a :: post) st r).rows =
      st.rows ++
        [{ merchantName := r.merchantName, legalName := r.legalName,
           actualMcc := r.actualMcc, mccDescription := r.mccDescription,
           cols := pre.map (agentCol false r) ++
             { agentName := a.name, suggestedMcc := "ERROR", mccDescription := e.str,
               confidence := 0, matchFlag := "Error" } ::
               post.map (agentCol false r) }] ∧
    (evaluator_process_record false (pre ++ a :: post) st r).metrics =
      (pre ++ post).foldl (agentMetricUpdate false r) st.metrics ∧
    List.foldl (evaluator_process_record false (pre ++ a :: post)) st (r :: ys) =
      List.foldl (evaluator_process_record false (pre ++ a :: post))
        (evaluator_process_record false (pre ++ a :: post) st r) ys := by
  have hcol : agentCol false r a =
      { agentName := a.name, suggestedMcc := "ERROR", mccDescription := e.str,
        confidence := 0, matchFlag := "Error" } := by
    unfold agentCol runAgentClassify
    rw [if_neg (by simp)]
    rw [herr]
  have hmet : ∀ m, agentMetricUpdate false r m a = m := by
    intro m
    unfold agentMetricUpdate runAgentClassify
    rw [if_neg (by simp)]
    rw [herr]
  refine ⟨hcol, hmet, ?_, ?_, List.foldl_cons ..⟩
  · unfold evaluator_process_record
    rw [if_neg hskip]
    simp [hcol]
  · unfold evaluator_process_record
    rw [if_neg hskip]
    simp only [List.foldl_append, List.foldl_cons, hmet]

/-- An always-raising agent used as a concrete C8 witness. -/
def errAgent : EvalAgent :=
  { name := "Err"
    classifyFull := fun _ => .error (.otherError ("boom"))
    classifyBasic := fun _ => .error (.otherError ("boom")) }

/-- C8 witness: a concrete record classified by a raising agent. -/
theorem c8_error_sentinel_witness :
    ¬((({ merchantName := "City Grocery", actualMcc := "5411" } : EvalRecord).merchantName = "" ∨
       ({ merchantName := "City Grocery", actualMcc := "5411" } : EvalRecord).actualMcc = "")) ∧
    errAgent.classifyBasic { merchantName := "City Grocery", actualMcc := "5411" } =
      .error (.otherError ("boom")) ∧
    agentCol false { merchantName := "City Grocery", actualMcc := "5411" } errAgent =
      { agentName := "Err", suggestedMcc := "ERROR", mccDescription := "boom",
        confidence := 0, matchFlag := "Error" } := by
  refine ⟨by decide, rfl, ?_⟩
  have h := (c8_error_sentinel { merchantName := "City Grocery", actualMcc := "5411" }
    errAgent (.otherError ("boom")) [] [] ⟨[], initMetrics [errAgent]⟩ []
    (by decide) rfl).1
  exact h

/-! ## Claims about fallback determinism (C9) -/

/-- C9 counterexample: the Matheus fallback echoes the supplied prior
description, so two calls agreeing on merchant name, legal name and prior
code but differing in the prior description return different decisions —
the decision is not a function of (name, legal_name, prior_code) alone. -/
theorem c9_counterexample_matheus_prior_description :
    ({ merchant_name := "Corner Shop", legal_name := some "X",
       original_mcc_code := some "5411", mcc_description := some "Custom A" } :
        MerchantData).merchant_name =
      ({ merchant_name := "Corner Shop", legal_name := some "X",
         original_mcc_code := some "5411", mcc_description := some "Custom B" } :
          MerchantData).merchant_name ∧
    ({ merchant_name := "Corner Shop", legal_name := some "X",
       original_mcc_code := some "5411", mcc_description := some "Custom A" } :
        MerchantData).legal_name =
      ({ merchant_name := "Corner Shop", legal_name := some "X",
         original_mcc_code := some "5411", mcc_description := some "Custom B" } :
          MerchantData).legal_name ∧
    ({ merchant_name := "Corner Shop", legal_name := some "X",
       original_mcc_code := some "5411", mcc_description := some "Custom A" } :
        MerchantData).original_mcc_code =
      ({ merchant_name := "Corner Shop", legal_name := some "X",
         original_mcc_code := some "5411", mcc_description := some "Custom B" } :
          MerchantData).original_mcc_code ∧
    (matheus_fallback_classify
      { merchant_name := "Corner Shop", legal_name := some "X",
        original_mcc_code := some "5411", mcc_description := some "Custom A" }).mcc_suggestion_description = "Custom A" ∧
    (matheus_fallback_classify
      { merchant_name := "Corner Shop", legal_name := some "X",
        original_mcc_code := some "5411", mcc_description := some "Custom B" }).mcc_suggestion_description = "Custom B" ∧
    matheus_fallback_classify
      { merchant_name := "Corner Shop", legal_name := some "X",
        original_mcc_code := some "5411", mcc_description := some "Custom A" } ≠
    matheus_fallback_classify
      { merchant_name := "Corner Shop", legal_name := some "X",
        original_mcc_code := some "5411", mcc_description := some "Custom B" } := by
  refine ⟨rfl, rfl, rfl, by decide, by decide, fun h => ?_⟩
  have hc := congrArg Tier1Out.mcc_suggestion_description h
  revert hc
  decide

/-- C9 amended: both service-free fallback classifiers are deterministic
functions of the fields they read — the Waki fallback of (merchant name,
legal name, prior code) alone, and the Matheus fallback of those plus the
prior description (which it echoes when present). -/
theorem c9_fallback_determinism (d1 d2 : MerchantData)
    (hn : d1.merchant_name = d2.merchant_name)
    (hl : d1.legal_name = d2.legal_name)
    (hp : d1.original_mcc_code = d2.original_mcc_code) :
    waki_fallback_classify d1 = waki_fallback_classify d2 ∧
    (d1.mcc_description = d2.mcc_description →
      matheus_fallback_classify d1 = matheus_fallback_classify d2) := by
  constructor
  · unfold waki_fallback_classify
    rw [hn, hl, hp]
  · intro hd
    unfold matheus_fallback_classify
    rw [hn, hp, hd]

/-- C9 witness: two records equal on the read fields but differing in the
unread `ai_original_description` field give identical fallback decisions. -/
theorem c9_fallback_determinism_witness :
    ({ merchant_name := "City Grocery", ai_original_description := some "alpha" } :
        MerchantData).merchant_name =
      ({ merchant_name := "City Grocery", ai_original_description := some "beta" } :
          MerchantData).merchant_name ∧
    (waki_fallback_classify
        { merchant_name := "City Grocery", ai_original_description := some "alpha" } =
      waki_fallback_classify
        { merchant_name := "City Grocery", ai_original_description := some "beta" } ∧
      (({ merchant_name := "City Grocery", ai_original_description := some "alpha" } :
          MerchantData).mcc_description =
        ({ merchant_name := "City Grocery", ai_original_description := some "beta" } :
            MerchantData).mcc_description →
        matheus_fallback_classify
            { merchant_name := "City Grocery", ai_original_description := some "alpha" } =
          matheus_fallback_classify
            { merchant_name := "City Grocery", ai_original_description := some "beta" })) :=
  ⟨rfl,
   c9_fallback_determinism
     { merchant_name := "City Grocery", ai_original_description := some "alpha" }
     { merchant_name := "City Grocery", ai_original_description := some "beta" }
     rfl rfl rfl⟩

/-! ## Parser invariants: confidence bounds and alternative confidences -/

theorem digitsVal_foldl_lt (ds : List Char) : ∀ (a : ℕ),
    (∀ c ∈ ds, c.isDigit = true) →
    List.foldl (fun a c => 10 * a + (c.toNat - 48)) a ds < (a + 1) * 10 ^ ds.length := by
  induction ds with
  | nil => intro a _; simp
  | cons c ds ih =>
    intro a h
    have hc : c.isDigit = true := h c (List.mem_cons_self c ds)
    have hd : c.toNat - 48 ≤ 9 := by
      simp [Char.isDigit] at hc
      exact Nat.sub_le_of_le_add hc.2
    have hih := ih (10 * a + (c.toNat - 48)) (fun x hx => h x (List.mem_cons_of_mem c hx))
    calc List.foldl (fun a c => 10 * a + (c.toNat - 48)) (10 * a + (c.toNat - 48)) ds
        < (10 * a + (c.toNat - 48) + 1) * 10 ^ ds.length := hih
      _ ≤ ((a + 1) * 10) * 10 ^ ds.length := by
          apply Nat.mul_le_mul_right
          omega
      _ = (a + 1) * 10 ^ (ds.length + 1) := by ring
      _ = (a + 1) * 10 ^ (c :: ds).length := by simp

theorem digitsVal_lt (ds : List Char) (h : ∀ c ∈ ds, c.isDigit = true) :
    digitsVal ds < 10 ^ ds.length := by
  have := digitsVal_foldl_lt ds 0 h
  simpa [digitsVal] using this

theorem decAt_range (u : List Char) (q : ℚ) (h : decAt u = some q) : 0 ≤ q ∧ q ≤ 1 := by
  unfold decAt at h
  split at h
  · split at h
    · rename_i ds heq
      split at h
      · exact absurd h (by simp)
      · injection h with h
        subst h
        constructor
        · positivity
        · rw [div_le_one (by positivity)]
          have hd : ∀ c ∈ ds.takeWhile Char.isDigit, c.isDigit = true := by
            intro c hc
            exact List.mem_takeWhile_imp hc
          have hlt := digitsVal_lt (ds.takeWhile Char.isDigit) hd
          have hle : (digitsVal (ds.takeWhile Char.isDigit) : ℚ) ≤
              ((10 ^ (ds.takeWhile Char.isDigit).length : ℕ) : ℚ) := by
            exact_mod_cast Nat.le_of_lt hlt
          calc (digitsVal (ds.takeWhile Char.isDigit) : ℚ)
              ≤ ((10 ^ (ds.takeWhile Char.isDigit).length : ℕ) : ℚ) := hle
            _ = (10 : ℚ) ^ (ds.takeWhile Char.isDigit).length := by push_cast; ring
    · exact absurd h (by simp)
  · exact absurd h (by simp)

theorem decScan_range (u : List Char) (q : ℚ) (h : decScan u = some q) : 0 ≤ q ∧ q ≤ 1 := by
  induction u with
  | nil => exact absurd h (by simp [decScan])
  | cons c cs ih =>
    unfold decScan at h
    split at h
    · rename_i heq
      injection h with h
      subst h
      exact decAt_range _ _ heq
    · exact ih h

theorem confUpdate_range (cv0 : ℚ) (low : List Char)
    (h : 0 ≤ cv0 ∧ cv0 ≤ 1) : 0 ≤ confUpdate cv0 low ∧ confUpdate cv0 low ≤ 1 := by
  unfold confUpdate
  cases hdec : decScan low with
  | some q => exact decScan_range _ _ hdec
  | none =>
    cases hpct : pctScan low with
    | some p =>
      constructor
      · have h1 : (0.01 : ℚ) ≤ max 0.01 ((p : ℚ) / 100) := le_max_left _ _
        exact le_min (by norm_num) (by linarith)
      · calc min (0.99 : ℚ) (max 0.01 ((p : ℚ) / 100)) ≤ 0.99 := min_le_left _ _
          _ ≤ 1 := by norm_num
    | none =>
      split_ifs with hh hm hl
      · exact ⟨by norm_num, by norm_num⟩
      · exact ⟨by norm_num, by norm_num⟩
      · exact ⟨by norm_num, by norm_num⟩
      · exact h

theorem flushAlt_confidence_value (st : PassSt) :
    (flushAlt st).confidence_value = st.confidence_value := by
  unfold flushAlt
  cases st.current_alt <;> rfl

theorem primaryUpdate_confidence_value (st : PassSt) (L : List Char) :
    (primaryUpdate st L).confidence_value = st.confidence_value := by
  unfold primaryUpdate
  cases firstFour L <;> rfl

theorem descUpdate_confidence_value (st : PassSt) (L low : List Char)
    (rest : List (List Char)) :
    (descUpdate st L low rest).confidence_value = st.confidence_value := by
  unfold descUpdate
  by_cases hd : (descNew L low rest).isEmpty = true
  · rw [if_pos hd]
  · rw [if_neg hd]

theorem altUpdate_confidence_value (st : PassSt) (L : List Char) :
    (altUpdate st L).confidence_value = st.confidence_value := by
  unfold altUpdate
  cases firstFour L with
  | some m => simp only [flushAlt_confidence_value]
  | none => cases st.current_alt <;> rfl

theorem cv_bounds_passStep (st : PassSt) (L : List Char) (rest : List (List Char))
    (h : 0 ≤ st.confidence_value ∧ st.confidence_value ≤ 1) :
    0 ≤ (passStep st L rest).confidence_value ∧
    (passStep st L rest).confidence_value ≤ 1 := by
  unfold passStep
  split_ifs with h1 h2 h3 h4 h5 h6 h7 h8 h9
  · exact h
  · exact h
  · exact h
  · rw [primaryUpdate_confidence_value]
    exact h
  · rw [descUpdate_confidence_value]
    exact h
  · exact h
  · exact confUpdate_range _ _ h
  · exact h
  · rw [altUpdate_confidence_value]
    exact h
  · exact h

theorem cv_bounds_passLoop (lines : List (List Char)) : ∀ (st : PassSt),
    0 ≤ st.confidence_value ∧ st.confidence_value ≤ 1 →
    0 ≤ (passLoop st lines).confidence_value ∧ (passLoop st lines).confidence_value ≤ 1 := by
  induction lines with
  | nil => intro st h; exact h
  | cons l rest ih =>
    intro st h
    exact ih _ (cv_bounds_passStep st l rest h)

theorem roundQ2_mono {a b : ℚ} (h : a ≤ b) : roundQ2 a ≤ roundQ2 b := by
  unfold roundQ2
  have h1 : round (a * 100) ≤ round (b * 100) := by
    rw [round_eq, round_eq]
    exact Int.floor_le_floor (by linarith)
  have h2 : ((round (a * 100) : ℤ) : ℚ) ≤ ((round (b * 100) : ℤ) : ℚ) := by exact_mod_cast h1
  gcongr

theorem le_altConf (cv : ℚ) (k : ℕ) : 1 / 10 ≤ altConf cv k := by
  unfold altConf roundQ2
  have h0 : (0.1 : ℚ) ≤ max 0.1 (cv - 0.2 - 0.1 * (k : ℚ)) := le_max_left _ _
  have h2 : (10 : ℤ) ≤ round (max 0.1 (cv - 0.2 - 0.1 * (k : ℚ)) * 100) := by
    have h3 : round ((10 : ℚ)) ≤ round (max 0.1 (cv - 0.2 - 0.1 * (k : ℚ)) * 100) := by
      rw [round_eq, round_eq]
      exact Int.floor_le_floor (by linarith)
    simpa using h3
  have h4 : ((10 : ℤ) : ℚ) ≤ ((round (max 0.1 (cv - 0.2 - 0.1 * (k : ℚ)) * 100) : ℤ) : ℚ) := by
    exact_mod_cast h2
  calc (1 / 10 : ℚ) = ((10 : ℤ) : ℚ) / 100 := by norm_num
    _ ≤ ((round (max 0.1 (cv - 0.2 - 0.1 * (k : ℚ)) * 100) : ℤ) : ℚ) / 100 := by gcongr

theorem altConf_antitone (cv : ℚ) {j k : ℕ} (h : j ≤ k) : altConf cv k ≤ altConf cv j := by
  unfold altConf
  apply roundQ2_mono
  have hjk : (j : ℚ) ≤ (k : ℚ) := by exact_mod_cast h
  exact max_le_max le_rfl (by linarith)

/-- The alternative-confidence invariant carried through the first pass:
every closed and pending alternative has confidence at least 0.1. -/
def altsConfOk (st : PassSt) : Prop :=
  (∀ a ∈ st.alts, 1 / 10 ≤ a.conf) ∧ ∀ a, st.current_alt = some a → 1 / 10 ≤ a.conf

theorem altsConfOk_of_projections {st st' : PassSt} (ha : st'.alts = st.alts)
    (hc : st'.current_alt = st.current_alt) (h : altsConfOk st) : altsConfOk st' := by
  unfold altsConfOk at h ⊢
  rw [ha, hc]
  exact h

theorem primaryUpdate_alts (st : PassSt) (L : List Char) :
    (primaryUpdate st L).alts = st.alts ∧ (primaryUpdate st L).current_alt = st.current_alt := by
  unfold primaryUpdate
  cases firstFour L <;> exact ⟨rfl, rfl⟩

theorem descUpdate_alts (st : PassSt) (L low : List Char) (rest : List (List Char)) :
    (descUpdate st L low rest).alts = st.alts ∧
    (descUpdate st L low rest).current_alt = st.current_alt := by
  unfold descUpdate
  by_cases hd : (descNew L low rest).isEmpty = true
  · rw [if_pos hd]
    exact ⟨rfl, rfl⟩
  · rw [if_neg hd]
    exact ⟨rfl, rfl⟩

theorem altsConfOk_flushAlt (st : PassSt) (h : altsConfOk st) : altsConfOk (flushAlt st) := by
  obtain ⟨h1, h2⟩ := h
  unfold flushAlt
  cases hc : st.current_alt with
  | none => exact ⟨h1, fun a ha => absurd (hc ▸ ha) (by simp)⟩
  | some a =>
    refine ⟨?_, fun b hb => absurd hb (by simp)⟩
    intro b hb
    rcases List.mem_append.mp hb with hb | hb
    · exact h1 b hb
    · have hconf : b.conf = a.conf := by
        rcases List.mem_singleton.mp hb with rfl
        by_cases he : st.alt_explanation.isEmpty = true
        · rw [if_pos he]
        · rw [if_neg he]
      rw [hconf]
      exact h2 a hc

theorem altsConfOk_altUpdate (st : PassSt) (L : List Char) (h : altsConfOk st) :
    altsConfOk (altUpdate st L) := by
  unfold altUpdate
  cases firstFour L with
  | some m =>
    have hf := altsConfOk_flushAlt st h
    refine ⟨hf.1, ?_⟩
    intro a ha
    simp only [Option.some.injEq] at ha
    rw [← ha]
    exact le_altConf _ _
  | none =>
    cases hc : st.current_alt with
    | some a => exact @altsConfOk_of_projections st _ rfl hc.symm h
    | none => exact h

theorem altsConfOk_passStep (st : PassSt) (L : List Char) (rest : List (List Char))
    (h : altsConfOk st) : altsConfOk (passStep st L rest) := by
  unfold passStep
  split_ifs with h1 h2 h3 h4 h5 h6 h7 h8 h9
  · exact h
  · exact altsConfOk_of_projections rfl rfl h
  · exact altsConfOk_of_projections rfl rfl h
  · exact altsConfOk_of_projections (primaryUpdate_alts st _).1 (primaryUpdate_alts st _).2 h
  · exact altsConfOk_of_projections (descUpdate_alts st _ _ _).1 (descUpdate_alts st _ _ _).2 h
  · exact altsConfOk_of_projections rfl rfl h
  · exact altsConfOk_of_projections rfl rfl h
  · exact altsConfOk_of_projections rfl rfl h
  · exact altsConfOk_altUpdate st _ h
  · exact h

theorem altsConfOk_passLoop (lines : List (List Char)) : ∀ (st : PassSt),
    altsConfOk st → altsConfOk (passLoop st lines) := by
  induction lines with
  | nil => intro st h; exact h
  | cons l rest ih =>
    intro st h
    exact ih _ (altsConfOk_passStep st l rest h)

theorem wakiFallbackAlts_conf (code : String) (a : AltMcc)
    (ha : a ∈ wakiFallbackAlts code) : 1 / 10 ≤ a.confidence := by
  unfold wakiFallbackAlts at ha
  split_ifs at ha <;> simp at ha <;> rcases ha with rfl | rfl <;> norm_num

theorem fillAlts_mem (code : String) (fb : List AltMcc) :
    ∀ (alts : List AltMcc) (a : AltMcc), a ∈ fillAlts code alts fb → a ∈ alts ∨ a ∈ fb := by
  induction fb with
  | nil => intro alts a ha; exact Or.inl ha
  | cons f fs ih =>
    intro alts a ha
    unfold fillAlts at ha ih
    rw [List.foldl_cons] at ha
    rcases ih _ a ha with hm | hm
    · by_cases hlen : 2 ≤ alts.length
      · rw [if_pos hlen] at hm
        exact Or.inl hm
      · rw [if_neg hlen] at hm
        by_cases hne : f.mcc_code ≠ code
        · rw [if_pos hne] at hm
          rcases List.mem_append.mp hm with hm | hm
          · exact Or.inl hm
          · exact Or.inr (List.mem_cons.mpr (Or.inl (List.mem_singleton.mp hm)))
        · rw [if_neg hne] at hm
          exact Or.inl hm
    · exact Or.inr (List.mem_cons_of_mem f hm)

theorem parseAltsF_conf (lines : List (List Char)) (st : PassSt) (h : altsConfOk st) :
    ∀ a ∈ parseAltsF lines st, 1 / 10 ≤ a.confidence := by
  intro a ha
  have hmapped : ∀ b ∈ st.alts.map altCtoMcc, 1 / 10 ≤ b.confidence := by
    intro b hb
    rcases List.mem_map.mp hb with ⟨c, hc, rfl⟩
    exact h.1 c hc
  unfold parseAltsF at ha
  split_ifs at ha with hlen
  · rcases fillAlts_mem _ _ _ _ ha with hm | hm
    · exact hmapped a hm
    · exact wakiFallbackAlts_conf _ a hm
  · exact hmapped a ha

/-! ## Digit-run algebra

Facts about `hasFourRun` needed for the parse-failure claim: a four-digit
run in a piece of text is a four-digit run in any supertext, and text
assembled from run-free pieces separated by non-digits is run-free. -/

/-- Whether the text begins with four digit characters. -/
def fourAt : List Char → Bool
  | a :: b :: c :: d :: _ => a.isDigit && b.isDigit && c.isDigit && d.isDigit
  | _ => false

theorem hasFourRun_cons_eq (c : Char) (cs : List Char) :
    hasFourRun (c :: cs) = (fourAt (c :: cs) || hasFourRun cs) := by
  match cs with
  | [] => simp [hasFourRun, fourAt]
  | [a] => simp [hasFourRun, fourAt]
  | [a, b] => simp [hasFourRun, fourAt]
  | a :: b :: d :: r => rfl

theorem hasFourRun_cons (c : Char) (cs : List Char) (h : hasFourRun cs = true) :
    hasFourRun (c :: cs) = true := by
  rw [hasFourRun_cons_eq, h, Bool.or_true]

theorem fourAt_hasFourRun (u : List Char) (h : fourAt u = true) : hasFourRun u = true := by
  match u with
  | [] => simp [fourAt] at h
  | c :: cs => rw [hasFourRun_cons_eq, h, Bool.true_or]

theorem fourAt_append (t r : List Char) (h : fourAt t = true) : fourAt (t ++ r) = true := by
  match t with
  | [] => simp [fourAt] at h
  | [a] => simp [fourAt] at h
  | [a, b] => simp [fourAt] at h
  | [a, b, c] => simp [fourAt] at h
  | a :: b :: c :: d :: rest => exact h

theorem hasFourRun_append_right (r : List Char) :
    ∀ (t : List Char), hasFourRun t = true → hasFourRun (t ++ r) = true := by
  intro t
  induction t with
  | nil => intro h; simp [hasFourRun] at h
  | cons c t ih =>
    intro h
    rw [hasFourRun_cons_eq] at h
    rw [List.cons_append, hasFourRun_cons_eq]
    rcases Bool.or_eq_true_iff.mp h with h | h
    · have hfa : fourAt (c :: (t ++ r)) = true := by
        have hfa2 := fourAt_append (c :: t) r h
        rwa [List.cons_append] at hfa2
      rw [hfa, Bool.true_or]
    · rw [ih h, Bool.or_true]

theorem hasFourRun_append_left (l : List Char) :
    ∀ (t : List Char), hasFourRun t = true → hasFourRun (l ++ t) = true := by
  induction l with
  | nil => intro t h; exact h
  | cons c l ih =>
    intro t h
    exact hasFourRun_cons c _ (ih t h)

theorem hasFourRun_mono {t s : List Char} (hinf : t <:+: s)
    (h : hasFourRun t = true) : hasFourRun s = true := by
  rcases hinf with ⟨l, r, rfl⟩
  rw [List.append_assoc]
  exact hasFourRun_append_left l _ (hasFourRun_append_right r t h)

theorem noFourRun_mono {t s : List Char} (hinf : t <:+: s)
    (h : hasFourRun s = false) : hasFourRun t = false := by
  by_contra hne
  rw [hasFourRun_mono hinf (Bool.of_not_eq_false hne)] at h
  exact absurd h (by simp)

theorem fourAt_cons_not_digit (c : Char) (l : List Char) (h : ¬ c.isDigit = true) :
    fourAt (c :: l) = false := by
  match l with
  | [] => rfl
  | [a] => rfl
  | [a, b] => rfl
  | a :: b :: d :: r => simp [fourAt, h]

theorem fourAt_cons2_not_digit (x y : Char) (l : List Char) (h : ¬ y.isDigit = true) :
    fourAt (x :: y :: l) = false := by
  match l with
  | [] => rfl
  | [a] => rfl
  | a :: b :: r => simp [fourAt, h]

theorem fourAt_cons3_not_digit (x y z : Char) (l : List Char) (h : ¬ z.isDigit = true) :
    fourAt (x :: y :: z :: l) = false := by
  match l with
  | [] => rfl
  | a :: r => simp [fourAt, h]

theorem fourAt_cons4_not_digit (x y z w : Char) (l : List Char) (h : ¬ w.isDigit = true) :
    fourAt (x :: y :: z :: w :: l) = false := by
  simp [fourAt, h]

theorem hasFourRun_sep_append (sep : Char) (hsep : ¬ sep.isDigit = true) :
    ∀ (a b : List Char), hasFourRun (a ++ sep :: b) = true →
    hasFourRun a = true ∨ hasFourRun b = true := by
  intro a
  induction a with
  | nil =>
    intro b h
    rw [List.nil_append, hasFourRun_cons_eq, fourAt_cons_not_digit sep b hsep,
      Bool.false_or] at h
    exact Or.inr h
  | cons c a ih =>
    intro b h
    rw [List.cons_append, hasFourRun_cons_eq] at h
    rcases Bool.or_eq_true_iff.mp h with h | h
    · match a, h with
      | [], h =>
        rw [List.nil_append, fourAt_cons2_not_digit c sep b hsep] at h
        exact absurd h (by simp)
      | [x], h =>
        rw [List.cons_append, List.nil_append,
          fourAt_cons3_not_digit c x sep b hsep] at h
        exact absurd h (by simp)
      | [x, y], h =>
        simp only [List.cons_append, List.nil_append] at h
        rw [fourAt_cons4_not_digit c x y sep b hsep] at h
        exact absurd h (by simp)
      | x :: y :: z :: w, h =>
        left
        apply fourAt_hasFourRun
        exact h
    · rcases ih b h with h | h
      · exact Or.inl (hasFourRun_cons c a h)
      · exact Or.inr h

theorem joinSp_noRun : ∀ (ps : List (List Char)),
    (∀ p ∈ ps, hasFourRun p = false) → hasFourRun (joinSp ps) = false := by
  intro ps
  induction ps with
  | nil => intro _; rfl
  | cons p qs ih =>
    intro h
    match qs with
    | [] => exact h p (List.mem_singleton.mpr rfl)
    | q :: rs =>
      show hasFourRun (p ++ ' ' :: joinSp (q :: rs)) = false
      by_contra hne
      rcases hasFourRun_sep_append ' ' (by decide) p (joinSp (q :: rs))
          (Bool.of_not_eq_false hne) with hr | hr
      · rw [h p (List.mem_cons_self _ _)] at hr
        exact absurd hr (by simp)
      · have hq : hasFourRun (joinSp (q :: rs)) = false :=
          ih (fun x hx => h x (List.mem_cons_of_mem p hx))
        rw [hq] at hr
        exact absurd hr (by simp)

/-! ## Infix structure of the line-splitting pipeline -/

theorem splitNl_structure : ∀ (cs : List Char),
    ∃ p0 ps, splitNl cs = p0 :: ps ∧ p0 <+: cs ∧ ∀ p ∈ ps, p <:+: cs := by
  intro cs
  induction cs with
  | nil => exact ⟨[], [], rfl, List.nil_prefix, fun p hp => absurd hp (by simp)⟩
  | cons c cs ih =>
    rcases ih with ⟨p0, ps, heq, hpre, hinf⟩
    by_cases hc : c = '\n'
    · refine ⟨[], splitNl cs, by simp [splitNl, hc], List.nil_prefix, ?_⟩
      intro p hp
      rw [heq] at hp
      rcases List.mem_cons.mp hp with rfl | hp
      · exact (hpre.isInfix).trans (List.infix_cons (List.infix_refl cs))
      · exact (hinf p hp).trans (List.infix_cons (List.infix_refl cs))
    · refine ⟨c :: p0, ps, ?_, ?_, ?_⟩
      · simp only [splitNl, hc, if_false, heq]
      · obtain ⟨t, ht⟩ := hpre
        exact ⟨t, by rw [List.cons_append, ht]⟩
      · intro p hp
        exact (hinf p hp).trans (List.infix_cons (List.infix_refl cs))

theorem splitNl_piece_within (cs : List Char) (p : List Char) (hp : p ∈ splitNl cs) :
    p <:+: cs := by
  rcases splitNl_structure cs with ⟨p0, ps, heq, hpre, hinf⟩
  rw [heq] at hp
  rcases List.mem_cons.mp hp with rfl | hp
  · exact hpre.isInfix
  · exact hinf p hp

theorem pyStripC_within (cs : List Char) : pyStripC cs <:+: cs := by
  unfold pyStripC
  have h1 : cs.dropWhile pyWs <:+ cs := List.dropWhile_suffix pyWs
  have h3 : (cs.dropWhile pyWs).reverse.dropWhile pyWs <:+ (cs.dropWhile pyWs).reverse :=
    List.dropWhile_suffix pyWs
  have h2 : ((cs.dropWhile pyWs).reverse.dropWhile pyWs).reverse <+: cs.dropWhile pyWs := by
    rw [← List.reverse_suffix]
    simpa using h3
  exact h2.isInfix.trans h1.isInfix

/-! ## Run-free texts defeat every code extractor -/

theorem fourAt_false_of_noRun (u : List Char) (h : hasFourRun u = false) :
    fourAt u = false := by
  by_contra hne
  rw [fourAt_hasFourRun u (Bool.of_not_eq_false hne)] at h
  exact absurd h (by simp)

theorem takeFourDigits_eq_none (u : List Char) (h : fourAt u = false) :
    takeFourDigits u = none := by
  match u with
  | [] => rfl
  | [a] => rfl
  | [a, b] => rfl
  | [a, b, c] => rfl
  | a :: b :: c :: d :: r =>
    show (if (a.isDigit && b.isDigit && c.isDigit && d.isDigit) = true
      then some [a, b, c, d] else none) = none
    have hcond : ¬ ((a.isDigit && b.isDigit && c.isDigit && d.isDigit) = true) := by
      intro hx
      rw [show fourAt (a :: b :: c :: d :: r) =
        (a.isDigit && b.isDigit && c.isDigit && d.isDigit) from rfl, hx] at h
      exact absurd h (by simp)
    rw [if_neg hcond]

theorem noFourRun_tail (c : Char) (cs : List Char) (h : hasFourRun (c :: cs) = false) :
    hasFourRun cs = false := by
  rw [hasFourRun_cons_eq] at h
  exact (Bool.or_eq_false_iff.mp h).2

theorem firstFour_eq_none (s : List Char) (h : hasFourRun s = false) :
    firstFour s = none := by
  induction s with
  | nil => rfl
  | cons c cs ih =>
    unfold firstFour
    rw [takeFourDigits_eq_none (c :: cs) (fourAt_false_of_noRun _ h)]
    exact ih (noFourRun_tail c cs h)

theorem noFourRun_suffix {t s : List Char} (hs : t <:+ s)
    (h : hasFourRun s = false) : hasFourRun t = false :=
  noFourRun_mono hs.isInfix h

theorem colonTail_suffix (rest : List Char) : colonTail rest <:+ rest := by
  unfold colonTail
  split
  · exact List.suffix_cons _ _
  · exact List.suffix_refl _

theorem labelCodeAt_eq_none (label u : List Char) (h : hasFourRun u = false) :
    labelCodeAt label u = none := by
  unfold labelCodeAt
  split_ifs with hp
  · apply takeFourDigits_eq_none
    apply fourAt_false_of_noRun
    apply noFourRun_suffix (List.dropWhile_suffix pyWs)
    apply noFourRun_suffix (colonTail_suffix (u.drop label.length))
    exact noFourRun_suffix (List.drop_suffix _ _) h
  · rfl

theorem aggr1Scan_eq_none (u : List Char) (h : hasFourRun u = false) :
    aggr1Scan u = none := by
  induction u with
  | nil => rfl
  | cons c cs ih =>
    unfold aggr1Scan labelCodeAt3
    rw [labelCodeAt_eq_none _ _ h, labelCodeAt_eq_none _ _ h, labelCodeAt_eq_none _ _ h]
    exact ih (noFourRun_tail c cs h)

theorem aggr2Line_eq_none (l : List Char) (h : hasFourRun l = false) :
    aggr2Line l = none := by
  unfold aggr2Line
  split_ifs with hg
  · rw [firstFour_eq_none l h]
  · rfl

theorem aggr2_eq_none (lines : List (List Char))
    (h : ∀ l ∈ lines, hasFourRun l = false) : aggr2 lines = none := by
  induction lines with
  | nil => rfl
  | cons l ls ih =>
    unfold aggr2
    rw [aggr2Line_eq_none l (h l (List.mem_cons_self _ _))]
    exact ih (fun x hx => h x (List.mem_cons_of_mem l hx))

theorem gather_noRun (hs : List (List Char)) (rest : List (List Char))
    (h : ∀ l ∈ rest, hasFourRun l = false) : hasFourRun (gather hs rest) = false := by
  unfold gather
  apply joinSp_noRun
  intro p hp
  rcases List.mem_filter.mp hp with ⟨hp, _⟩
  rcases List.mem_map.mp hp with ⟨l, hl, rfl⟩
  have hlr : l ∈ rest := (List.takeWhile_sublist _).subset hl
  exact noFourRun_mono (pyStripC_within l) (h l hlr)

/-! ## The run-free invariant of the first pass -/

/-- Invariant carried through the first pass over a run-free reply: no
code found, no alternative accumulated, and the gathered sections are
themselves run-free. -/
def c3P (st : PassSt) : Prop :=
  st.mcc_code = none ∧ st.current_alt = none ∧ st.alts = [] ∧
    hasFourRun st.analysis = false ∧ hasFourRun st.reasoning = false

theorem c3P_descUpdate (st : PassSt) (L low : List Char) (rest : List (List Char))
    (h : c3P st) : c3P (descUpdate st L low rest) := by
  unfold descUpdate
  by_cases hd : (descNew L low rest).isEmpty = true
  · rw [if_pos hd]
    exact h
  · rw [if_neg hd]
    exact h

theorem c3P_passStep (st : PassSt) (L0 : List Char) (rest : List (List Char))
    (hP : c3P st) (hL : hasFourRun L0 = false)
    (hrest : ∀ l ∈ rest, hasFourRun l = false) : c3P (passStep st L0 rest) := by
  have hLs : hasFourRun (pyStripC L0) = false :=
    noFourRun_mono (pyStripC_within L0) hL
  unfold passStep
  split_ifs with h1 h2 h3 h4 h5 h6 h7 h8 h9
  · exact hP
  · exact ⟨hP.1, hP.2.1, hP.2.2.1, gather_noRun _ _ hrest, hP.2.2.2.2⟩
  · exact hP
  · unfold primaryUpdate
    rw [firstFour_eq_none _ hLs]
    exact hP
  · exact c3P_descUpdate st _ _ rest hP
  · exact ⟨hP.1, hP.2.1, hP.2.2.1, hP.2.2.2.1, gather_noRun _ _ hrest⟩
  · exact hP
  · exact hP
  · unfold altUpdate
    rw [firstFour_eq_none _ hLs, hP.2.1]
    exact hP
  · exact hP

theorem c3P_passLoop : ∀ (lines : List (List Char)) (st : PassSt), c3P st →
    (∀ l ∈ lines, hasFourRun l = false) → c3P (passLoop st lines) := by
  intro lines
  induction lines with
  | nil => intro st h _; exact h
  | cons l ls ih =>
    intro st h hl
    exact ih _ (c3P_passStep st l ls h (hl l (List.mem_cons_self _ _))
      (fun x hx => hl x (List.mem_cons_of_mem l hx)))
      (fun x hx => hl x (List.mem_cons_of_mem l hx))

theorem flushAlt_of_none (st : PassSt) (h : st.current_alt = none) : flushAlt st = st := by
  unfold flushAlt
  rw [h]

/-! ## C3: the parser degrades to the fallback code, never raising -/

/-- C3: for every reply with no run of four digits anywhere, the free-text
parser — a total function, so no exception can escape it — returns the
designated fallback code "7299" with description "Miscellaneous Personal
Services", and still synthesizes its two generic alternatives. -/
theorem c3_parse_degrades_to_fallback (text : String)
    (h : hasFourRun text.data = false) :
    (parse_gpt_response text).mcc_code = "7299" ∧
    (parse_gpt_response text).mcc_description = "Miscellaneous Personal Services" ∧
    (parse_gpt_response text).alternative_mccs.map AltMcc.mcc_code =
      ["7399", "7311"] := by
  have hlines : ∀ l ∈ splitNl (pyStripC text.data), hasFourRun l = false := by
    intro l hl
    exact noFourRun_mono
      ((splitNl_piece_within (pyStripC text.data) l hl).trans (pyStripC_within text.data)) h
  have hP : c3P (passLoop {} (splitNl (pyStripC text.data))) :=
    c3P_passLoop _ {} ⟨rfl, rfl, rfl, rfl, rfl⟩ hlines
  have hflush : flushAlt (passLoop {} (splitNl (pyStripC text.data))) =
      passLoop {} (splitNl (pyStripC text.data)) :=
    flushAlt_of_none _ hP.2.1
  have hc1 : parseCode1 (passLoop {} (splitNl (pyStripC text.data))) = none := by
    unfold parseCode1
    rw [hP.1, aggr1Scan_eq_none _ hP.2.2.2.1, aggr1Scan_eq_none _ hP.2.2.2.2]
  have hcd : parseCodeDesc (splitNl (pyStripC text.data))
      (passLoop {} (splitNl (pyStripC text.data))) = (none, none) := by
    unfold parseCodeDesc
    rw [hc1, aggr2_eq_none _ hlines]
  have hcode : parseCodeF (splitNl (pyStripC text.data))
      (passLoop {} (splitNl (pyStripC text.data))) = "7299" := by
    unfold parseCodeF
    rw [hcd]
  have hdesc : parseDescF (splitNl (pyStripC text.data))
      (passLoop {} (splitNl (pyStripC text.data))) = "Miscellaneous Personal Services" := by
    unfold parseDescF
    rw [hcode, if_pos (by decide : wakiMccMem ("7299") = true)]
    decide
  have halts : parseAltsF (splitNl (pyStripC text.data))
      (passLoop {} (splitNl (pyStripC text.data))) =
      fillAlts ("7299") [] (wakiFallbackAlts ("7299")) := by
    unfold parseAltsF
    rw [hP.2.2.1, hcode]
    simp
  unfold parse_gpt_response parseAssemble
  rw [hflush]
  refine ⟨hcode, hdesc, ?_⟩
  rw [halts]
  show (fillAlts ("7299") [] (wakiFallbackAlts ("7299"))).map AltMcc.mcc_code =
    ["7399", "7311"]
  decide

/-- C3 witness: a concrete garbled reply with no digit runs. -/
theorem c3_parse_degrades_to_fallback_witness :
    hasFourRun ("@@ garbled ?! nonsense with no codes").data = false ∧
    ((parse_gpt_response ("@@ garbled ?! nonsense with no codes")).mcc_code = "7299" ∧
      (parse_gpt_response ("@@ garbled ?! nonsense with no codes")).mcc_description =
        "Miscellaneous Personal Services" ∧
      (parse_gpt_response ("@@ garbled ?! nonsense with no codes")).alternative_mccs.map
        AltMcc.mcc_code = ["7399", "7311"]) :=
  ⟨by decide, c3_parse_degrades_to_fallback ("@@ garbled ?! nonsense with no codes")
    (by decide)⟩

/-! ## C4: decision invariants -/

/-- The reply used to refute C4's no-duplicate-alternative invariant. -/
def c4Reply : String :=
  "Primary MCC: 5812\nAlternative MCCs:\n5812 - Eating Places\n5814 - Fast Food"

/-- C4 counterexample: a reply whose "Alternative MCCs" section repeats the
primary code is parsed into a decision whose alternatives contain the
primary code — the parser copies section alternatives without filtering
against the primary. -/
theorem c4_counterexample_alternative_equals_primary :
    (parse_gpt_response c4Reply).mcc_code = "5812" ∧
    "5812" ∈ (parse_gpt_response c4Reply).alternative_mccs.map AltMcc.mcc_code := by
  exact ⟨by decide, by decide⟩

theorem mem_insertByScoreDesc (x y : String × String × Nat)
    (l : List (String × String × Nat)) (h : y ∈ insertByScoreDesc x l) :
    y = x ∨ y ∈ l := by
  induction l with
  | nil =>
    unfold insertByScoreDesc at h
    simp at h
    exact Or.inl h
  | cons z zs ih =>
    unfold insertByScoreDesc at h
    split_ifs at h
    · rcases List.mem_cons.mp h with rfl | h
      · exact Or.inr (List.mem_cons_self _ _)
      · rcases ih h with h | h
        · exact Or.inl h
        · exact Or.inr (List.mem_cons_of_mem z h)
    · rcases List.mem_cons.mp h with rfl | h
      · exact Or.inl rfl
      · exact Or.inr h

theorem mem_sortByScoreDesc (y : String × String × Nat)
    (l : List (String × String × Nat)) (h : y ∈ sortByScoreDesc l) : y ∈ l := by
  induction l with
  | nil => simp [sortByScoreDesc] at h
  | cons z zs ih =>
    unfold sortByScoreDesc at h
    rcases mem_insertByScoreDesc z y _ h with rfl | h
    · exact List.mem_cons_self _ _
    · exact List.mem_cons_of_mem z (ih h)

theorem mem_genericCandidate (primary X : String) (d : String × Nat)
    (c : String × String × Nat)
    (hc : c ∈ (if primary ≠ X then [(X, d)] else [])) : c.1 ≠ primary := by
  split_ifs at hc with hne
  · rcases List.mem_singleton.mp hc with rfl
    exact fun he => hne he.symm
  · exact absurd hc (by simp)

theorem altCandidates_ne_primary (primary name : String)
    (data : List (String × String)) :
    ∀ c ∈ altCandidates primary name data, c.1 ≠ primary := by
  have hscored : ∀ c ∈ altScored primary name data, c.1 ≠ primary := by
    intro c hc
    rcases List.mem_filterMap.mp hc with ⟨e, _, he⟩
    by_cases h1 : e.1 = primary
    · rw [if_pos h1] at he
      exact absurd he (by simp)
    · rw [if_neg h1] at he
      by_cases h2 : keywordScore e.2 (lowerC name.data) > 0
      · rw [if_pos h2] at he
        injection he with he
        rw [← he]
        exact h1
      · rw [if_neg h2] at he
        exact absurd he (by simp)
  intro c hc
  unfold altCandidates at hc
  rcases Decidable.em ((altScored primary name data).length < 2) with hlen | hlen
  · rw [if_pos hlen] at hc
    rcases List.mem_append.mp hc with hc | hc
    · rcases List.mem_append.mp hc with hc | hc
      · rcases List.mem_append.mp hc with hc | hc
        · exact hscored c hc
        · exact mem_genericCandidate primary _ _ c hc
      · exact mem_genericCandidate primary _ _ c hc
    · exact mem_genericCandidate primary _ _ c hc
  · rw [if_neg hlen] at hc
    exact hscored c hc

/-- C4 amended: the parser always clamps its confidence into [0, 1], and
the Matheus-side generated alternatives never carry the primary code; the
duplicate-free property fails only for alternatives copied verbatim from
the reply's "Alternative MCCs" section (see the counterexample). -/
theorem c4_decision_invariants (text : String) (primary name : String) :
    (0 ≤ (parse_gpt_response text).confidence ∧
      (parse_gpt_response text).confidence ≤ 1) ∧
    primary ∉ (generate_alternative_mccs primary name matheus_mcc_data).map
      AltMcc.mcc_code := by
  constructor
  · have h := cv_bounds_passLoop (splitNl (pyStripC text.data)) {} (by norm_num)
    unfold parse_gpt_response
    have hconf : (parseAssemble (splitNl (pyStripC text.data))
        (flushAlt (passLoop {} (splitNl (pyStripC text.data))))).confidence =
        (flushAlt (passLoop {} (splitNl (pyStripC text.data)))).confidence_value := rfl
    rw [hconf, flushAlt_confidence_value]
    exact h
  · intro hmem
    rcases List.mem_map.mp hmem with ⟨a, ha, hcode⟩
    unfold generate_alternative_mccs at ha
    rcases List.mem_map.mp ha with ⟨c, hc, rfl⟩
    have hin : c ∈ sortByScoreDesc (altCandidates primary name matheus_mcc_data) :=
      List.mem_of_mem_take hc
    exact altCandidates_ne_primary primary name matheus_mcc_data c
      (mem_sortByScoreDesc _ _ hin) hcode

/-- C4 amended, witnessed at concrete inputs. -/
theorem c4_decision_invariants_witness :
    (0 ≤ (parse_gpt_response ("no digits at all")).confidence ∧
      (parse_gpt_response ("no digits at all")).confidence ≤ 1) ∧
    "5812" ∉ (generate_alternative_mccs "5812" "City Grocery" matheus_mcc_data).map
      AltMcc.mcc_code :=
  c4_decision_invariants ("no digits at all") ("5812") ("City Grocery")

/-! ## C5: alternative confidence sequence -/

/-- The reply used to refute C5's strict-decrease property: with primary
confidence 20%, both alternatives bottom out at the 0.1 floor. -/
def c5Reply : String :=
  "Confidence: 20%\nAlternative MCCs:\n5411 - Grocery Stores\n5812 - Restaurants"

/-- C5 counterexample: two successively extracted alternatives both receive
the floored confidence 0.1, so the confidences are not strictly
decreasing. -/
theorem c5_counterexample_floor_ties :
    (parse_gpt_response c5Reply).alternative_mccs.map AltMcc.confidence =
      [1 / 10, 1 / 10] ∧
    ¬ List.Chain' (fun a b : ℚ => b < a)
      ((parse_gpt_response c5Reply).alternative_mccs.map AltMcc.confidence) := by
  have h : (parse_gpt_response c5Reply).alternative_mccs.map AltMcc.confidence =
      [altConf (min 0.99 (max 0.01 (((20 : ℕ) : ℚ) / 100))) 0,
       altConf (min 0.99 (max 0.01 (((20 : ℕ) : ℚ) / 100))) 1] := rfl
  have h0 : altConf (min 0.99 (max 0.01 (((20 : ℕ) : ℚ) / 100))) 0 = 1 / 10 := by
    unfold altConf roundQ2
    norm_num [round_eq]
  have h1 : altConf (min 0.99 (max 0.01 (((20 : ℕ) : ℚ) / 100))) 1 = 1 / 10 := by
    unfold altConf roundQ2
    norm_num [round_eq]
  rw [h, h0, h1]
  exact ⟨rfl, by simp⟩

/-- C5 amended: each extracted alternative receives
`round(max(0.1, primary_confidence - 0.2 - 0.1·k), 2)` for its position
`k`; this sequence is non-increasing (strict decrease stops at the 0.1
floor, where consecutive confidences tie) and bounded below by 0.1, and
every alternative of a parsed decision — including the synthesized
fill-ins — has confidence at least 0.1. -/
theorem c5_alternative_confidences (cv : ℚ) (j k : ℕ) (hjk : j ≤ k) (text : String) :
    altConf cv k ≤ altConf cv j ∧
    1 / 10 ≤ altConf cv k ∧
    ∀ a ∈ (parse_gpt_response text).alternative_mccs, 1 / 10 ≤ a.confidence := by
  refine ⟨altConf_antitone cv hjk, le_altConf cv k, ?_⟩
  have hok : altsConfOk (flushAlt (passLoop {} (splitNl (pyStripC text.data)))) := by
    apply altsConfOk_flushAlt
    apply altsConfOk_passLoop
    exact ⟨fun a ha => absurd ha (by simp), fun a ha => absurd ha (by simp)⟩
  exact parseAltsF_conf _ _ hok

/-- C5 amended, witnessed at concrete inputs. -/
theorem c5_alternative_confidences_witness :
    (0 ≤ 1 ∧
      (altConf 0.2 1 ≤ altConf 0.2 0 ∧
        1 / 10 ≤ altConf 0.2 1 ∧
        ∀ a ∈ (parse_gpt_response ("garbled ???")).alternative_mccs,
          1 / 10 ≤ a.confidence)) :=
  ⟨by norm_num, c5_alternative_confidences 0.2 0 1 (by norm_num) ("garbled ???")⟩

end MccTester
